import Mathlib

/-!
Verification of the karaokio orchestration layer against its specification.

The TypeScript sources are shallowly embedded: pure functions become Lean
functions, the SQLite tables become lists of records, and the stateful
pipeline `processKaraokeSong` becomes a state-passing computation whose
external collaborators (filesystem, torrent client, YouTube client, audio
and video processors, lyrics fetcher) are supplied as oracle parameters.
JS numbers that carry progress fractions are modelled as exact rationals;
JS string operations `toLowerCase`/`trim` are modelled by the char-wise
`jsToLower`/`jsTrim` below.
-/

set_option maxRecDepth 20000

namespace Karaokio

/-- `Math.round` of JavaScript: round half away from zero towards +∞,
i.e. `⌊x + 1/2⌋`. -/
def jsRound (x : ℚ) : ℤ := Int.floor (x + 1/2)

/-! ### SHA-256 (`crypto.createHash('sha256')`)

A byte-level implementation of FIPS 180-4 SHA-256, used by
`CacheManager.generateCacheKey` via node's crypto module.  Bytes and words
are plain `Nat` reduced mod `2^32` where overflow matters. -/

namespace Sha256

def w32 : Nat := 4294967296

def rotr (k n : Nat) : Nat := ((n >>> k) ||| (n <<< (32 - k))) % w32

def add32 (a b : Nat) : Nat := (a + b) % w32

def bigSigma0 (x : Nat) : Nat := (rotr 2 x) ^^^ (rotr 13 x) ^^^ (rotr 22 x)

def bigSigma1 (x : Nat) : Nat := (rotr 6 x) ^^^ (rotr 11 x) ^^^ (rotr 25 x)

def smallSigma0 (x : Nat) : Nat := (rotr 7 x) ^^^ (rotr 18 x) ^^^ (x >>> 3)

def smallSigma1 (x : Nat) : Nat := (rotr 17 x) ^^^ (rotr 19 x) ^^^ (x >>> 10)

def chValue (e f g : Nat) : Nat := (e &&& f) ^^^ ((e ^^^ 4294967295) &&& g)

def majValue (a b c : Nat) : Nat := (a &&& b) ^^^ (a &&& c) ^^^ (b &&& c)

def roundConsts : List Nat :=
  [1116352408, 1899447441, 3049323471, 3921009573, 961987163, 1508970993,
   2453635748, 2870763221, 3624381080, 310598401, 607225278, 1426881987,
   1925078388, 2162078206, 2614888103, 3248222580, 3835390401, 4022224774,
   264347078, 604807628, 770255983, 1249150122, 1555081692, 1996064986,
   2554220882, 2821834349, 2952996808, 3210313671, 3336571891, 3584528711,
   113926993, 338241895, 666307205, 773529912, 1294757372, 1396182291,
   1695183700, 1986661051, 2177026350, 2456956037, 2730485921, 2820302411,
   3259730800, 3345764771, 3516065817, 3600352804, 4094571909, 275423344,
   430227734, 506948616, 659060556, 883997877, 958139571, 1322822218,
   1537002063, 1747873779, 1955562222, 2024104815, 2227730452, 2361852424,
   2428436474, 2756734187, 3204031479, 3329325298]

def initHash : List Nat :=
  [1779033703, 3144134277, 1013904242, 2773480762, 1359893119, 2600822924,
   528734635, 1541459225]

/-- Big-endian byte expansion of `n` into `count` bytes. -/
def beBytes (n count : Nat) : List Nat :=
  (List.range count).reverse.map (fun i => (n >>> (8 * i)) % 256)

/-- Number of zero bytes inserted between the `0x80` marker and the
64-bit length so the padded message length is a multiple of 64. -/
def padZeroCount (len : Nat) : Nat := (119 - len % 64) % 64

def pad (msg : List Nat) : List Nat :=
  msg ++ [0x80] ++ List.replicate (padZeroCount msg.length) 0 ++ beBytes (msg.length * 8) 8

/-- The 16 big-endian 32-bit words of one 64-byte block. -/
def toWords (block : List Nat) : Array Nat :=
  ((List.range 16).map (fun i =>
    block.getD (4 * i) 0 * 16777216 + block.getD (4 * i + 1) 0 * 65536 +
    block.getD (4 * i + 2) 0 * 256 + block.getD (4 * i + 3) 0)).toArray

/-- Extend the 16 block words to the 64-word message schedule. -/
def schedule (ws : Array Nat) : Array Nat :=
  (List.range 48).foldl (fun a i =>
    let t := i + 16
    a.push (add32 (add32 (smallSigma1 (a.getD (t - 2) 0)) (a.getD (t - 7) 0))
                  (add32 (smallSigma0 (a.getD (t - 15) 0)) (a.getD (t - 16) 0)))) ws

def compress (h : List Nat) (w : Array Nat) : List Nat :=
  let final := (List.range 64).foldl (fun st t =>
    match st with
    | [a, b, c, d, e, f, g, hh] =>
      let t1 := add32 hh (add32 (bigSigma1 e)
        (add32 (chValue e f g) (add32 (roundConsts.getD t 0) (w.getD t 0))))
      let t2 := add32 (bigSigma0 a) (majValue a b c)
      [add32 t1 t2, a, b, c, add32 d t1, e, f, g]
    | st => st) h
  List.zipWith add32 h final

def sha256Bytes (msg : List Nat) : List Nat :=
  let padded := pad msg
  let n := padded.length / 64
  let final := (List.range n).foldl
    (fun h i => compress h (schedule (toWords ((padded.drop (64 * i)).take 64)))) initHash
  final.foldr (fun word acc => beBytes word 4 ++ acc) []

def hexDigits : List Char := String.toList "0123456789abcdef"

def toHex (bytes : List Nat) : String :=
  String.mk (bytes.foldr (fun b acc => hexDigits.getD (b / 16) '0' :: hexDigits.getD (b % 16) '0' :: acc) [])

end Sha256

/-- UTF-8 encoding of one character (node hashes the UTF-8 bytes of the
string passed to `update`). -/
def utf8Encode (c : Char) : List Nat :=
  let n := c.toNat
  if n < 0x80 then [n]
  else if n < 0x800 then [0xc0 ||| (n >>> 6), 0x80 ||| (n &&& 0x3f)]
  else if n < 0x10000 then
    [0xe0 ||| (n >>> 12), 0x80 ||| ((n >>> 6) &&& 0x3f), 0x80 ||| (n &&& 0x3f)]
  else
    [0xf0 ||| (n >>> 18), 0x80 ||| ((n >>> 12) &&& 0x3f),
     0x80 ||| ((n >>> 6) &&& 0x3f), 0x80 ||| (n &&& 0x3f)]

def strBytes (s : String) : List Nat :=
  s.data.foldr (fun c acc => utf8Encode c ++ acc) []

/-! ### CacheManager.generateCacheKey -/

/-- JS `toLowerCase`, char-wise (ASCII-adequate for the corpus). -/
def jsToLower (s : String) : String := String.mk (s.data.map Char.toLower)

/-- JS `trim`: strip leading and trailing whitespace. -/
def jsTrim (s : String) : String :=
  String.mk (((s.data.dropWhile Char.isWhitespace).reverse.dropWhile Char.isWhitespace).reverse)

/-- The normalized concatenation hashed by `generateCacheKey`:
`title.toLowerCase().trim()` and `artist.toLowerCase().trim()` joined with
the *verbatim* quality by `_` separators. -/
def normalizedCacheInput (title artist quality : String) : String :=
  jsTrim (jsToLower title) ++ "_" ++ jsTrim (jsToLower artist) ++ "_" ++ quality

/-- `CacheManager.generateCacheKey`: sha256 hex digest of the normalized
concatenation, truncated (`substring(0, 16)`) to the first 16 hex
characters. -/
def generateCacheKey (title artist quality : String) : String :=
  String.mk
    ((Sha256.toHex (Sha256.sha256Bytes (strBytes (normalizedCacheInput title artist quality)))).data.take 16)

/-- JS template-literal coercion of a possibly `undefined` string
(`quality` is typed `string` but callers pass `options.quality`, which may
be `undefined`; interpolation renders it as `"undefined"`). -/
def jsStr (o : Option String) : String := o.getD "undefined"

/-! ### Cache Index (`CacheManager`, `processed_cache` table) -/

/-- The `files` object of a `ProcessedSong` (and the four artifact path
columns of a cache row). -/
structure CacheFiles where
  original : Option String
  instrumental : Option String
  lyrics : Option String
  video : Option String
deriving DecidableEq, Repr

structure ProcessedSongMeta where
  title : String
  artist : String
  quality : Option String
  youtubeVideoId : Option String
deriving DecidableEq, Repr

/-- Result shape of `CacheManager.checkCache`. -/
structure ProcessedSong where
  cacheKey : String
  files : CacheFiles
  metadata : ProcessedSongMeta
deriving DecidableEq, Repr

/-- One row of the `processed_cache` table. -/
structure CacheRow where
  cacheKey : String
  title : String
  artist : String
  originalAudioPath : Option String
  instrumentalPath : Option String
  lyricsPath : Option String
  videoPath : Option String
  youtubeVideoId : Option String
  processingQuality : Option String
  createdAt : Nat
  lastAccessed : Nat
  fileSize : Nat
deriving DecidableEq, Repr

/-- The `processed_cache` table (cache_key is UNIQUE). -/
abbrev CacheDB := List CacheRow

/-- `fs.existsSync`, as an oracle. -/
abbrev Fs := String → Bool

def findRow (db : CacheDB) (k : String) : Option CacheRow :=
  db.find? (fun r => r.cacheKey == k)

/-- `CacheManager.updateLastAccessed`: `UPDATE processed_cache SET
last_accessed = CURRENT_TIMESTAMP WHERE cache_key = ?`. -/
def updateLastAccessed (k : String) (now : Nat) (db : CacheDB) : CacheDB :=
  db.map (fun r => if r.cacheKey == k then { r with lastAccessed := now } else r)

/-- `CacheManager.removeFromCache`: `DELETE FROM processed_cache WHERE
cache_key = ?`. -/
def removeFromCache (k : String) (db : CacheDB) : CacheDB :=
  db.filter (fun r => !(r.cacheKey == k))

/-- `row.xxx_path && fs.existsSync(row.xxx_path)` — a path is served only
if present in the row and existing on disk. -/
def presentFile (fs : Fs) (p : Option String) : Option String :=
  match p with
  | some q => if fs q then some q else none
  | none => none

/-- `CacheManager.checkCache`: compute the key, look the row up; on a row,
bump `last_accessed` first, then verify file existence; purge the row and
miss when a mandatory file (instrumental or video) is gone. -/
def checkCache (fs : Fs) (now : Nat) (title artist quality : String) (db : CacheDB) :
    Option ProcessedSong × CacheDB :=
  let cacheKey := generateCacheKey title artist quality
  match findRow db cacheKey with
  | none => (none, db)
  | some row =>
    let db1 := updateLastAccessed cacheKey now db
    let files : CacheFiles :=
      { original := presentFile fs row.originalAudioPath
        instrumental := presentFile fs row.instrumentalPath
        lyrics := presentFile fs row.lyricsPath
        video := presentFile fs row.videoPath }
    if files.instrumental.isNone || files.video.isNone then
      (none, removeFromCache cacheKey db1)
    else
      (some { cacheKey := cacheKey, files := files,
              metadata := { title := row.title, artist := row.artist,
                            quality := row.processingQuality,
                            youtubeVideoId := row.youtubeVideoId } }, db1)

/-- `CacheManager.addToCache`: total size of the files that exist, then
`INSERT OR REPLACE` (modelled as delete-then-append; `created_at` and
`last_accessed` take their `CURRENT_TIMESTAMP` defaults). -/
def addToCache (fs : Fs) (sizeOf : String → Nat) (now : Nat)
    (title artist quality : String) (files : CacheFiles)
    (youtubeVideoId : Option String) (db : CacheDB) : CacheDB :=
  let cacheKey := generateCacheKey title artist quality
  let totalSize := [files.original, files.instrumental, files.lyrics, files.video].foldl
    (fun acc p => match p with
      | some q => if fs q then acc + sizeOf q else acc
      | none => acc) 0
  removeFromCache cacheKey db ++
    [{ cacheKey := cacheKey, title := title, artist := artist,
       originalAudioPath := files.original, instrumentalPath := files.instrumental,
       lyricsPath := files.lyrics, videoPath := files.video,
       youtubeVideoId := youtubeVideoId, processingQuality := some quality,
       createdAt := now, lastAccessed := now, fileSize := totalSize }]

/-! ### Status Store (`KaraokeDB`, `songs` table) -/

/-- The status strings actually written by the code. -/
inductive SongStatus
  | queued | processing | ready | playing | completed | failed
deriving DecidableEq, Repr

/-- One row of the `songs` table (joined with its user, which the request
route always inserts first).  Note the schema has *no* error column. -/
structure Song where
  id : String
  userId : String
  songTitle : String
  artist : String
  status : SongStatus
  processingProgress : ℤ
  requestedAt : Nat
  originalAudioPath : Option String
  instrumentalPath : Option String
  lyricsPath : Option String
  videoPath : Option String
deriving DecidableEq, Repr

abbrev SongsDB := List Song

def getSong (db : SongsDB) (id : String) : Option Song :=
  db.find? (fun s => s.id == id)

/-- `KaraokeDB.updateSongStatus` — with a progress argument both columns
are set, without it only the status. -/
def updateSongStatus (id : String) (st : SongStatus) (progress : Option ℤ)
    (db : SongsDB) : SongsDB :=
  db.map (fun s =>
    if s.id == id then
      match progress with
      | some p => { s with status := st, processingProgress := p }
      | none => { s with status := st }
    else s)

structure PathsUpdate where
  original : Option String := none
  instrumental : Option String := none
  lyrics : Option String := none
  video : Option String := none
deriving DecidableEq, Repr

/-- `updateSongPaths` only writes a column when the value is truthy, so a
missing or empty-string path leaves the column alone. -/
def applyPath (cur upd : Option String) : Option String :=
  match upd with
  | some v => if v = "" then cur else some v
  | none => cur

def updateSongPaths (id : String) (u : PathsUpdate) (db : SongsDB) : SongsDB :=
  db.map (fun s =>
    if s.id == id then
      { s with originalAudioPath := applyPath s.originalAudioPath u.original
               instrumentalPath := applyPath s.instrumentalPath u.instrumental
               lyricsPath := applyPath s.lyricsPath u.lyrics
               videoPath := applyPath s.videoPath u.video }
    else s)

/-- The WHERE filter of `KaraokeDB.getQueue`: `status IN ('queued',
'processing', 'ready', 'playing')`. -/
def activeStatus (st : SongStatus) : Bool :=
  st == .queued || st == .processing || st == .ready || st == .playing

/-- `KaraokeDB.getQueue`: the songs with an active status, ordered by
`requested_at` ascending. -/
def getQueue (db : SongsDB) : List Song :=
  List.insertionSort (fun a b => a.requestedAt ≤ b.requestedAt)
    (db.filter (fun s => activeStatus s.status))

/-- `KaraokeDB.getCurrentSong`: `WHERE status = 'playing' LIMIT 1`. -/
def getCurrentSong (db : SongsDB) : Option Song :=
  db.find? (fun s => s.status == .playing)

/-! ### Queue-advance routes -/

inductive RouteResult
  | ok | badRequest | notFound
deriving DecidableEq, Repr

/-- `POST /api/queue/[songId]/start`: requires the song to exist and be
`ready`; completes the currently playing song, then marks the target
`playing`. -/
def startRoute (songId : String) (db : SongsDB) : RouteResult × SongsDB :=
  match getSong db songId with
  | none => (.notFound, db)
  | some song =>
    if song.status ≠ .ready then (.badRequest, db)
    else
      let db1 :=
        match getCurrentSong db with
        | some cur => updateSongStatus cur.id .completed none db
        | none => db
      (.ok, updateSongStatus songId .playing none db1)

/-- `POST` complete/advance handler: unconditionally marks the given song
`completed`, then promotes the first `ready` song of the queue (ordered by
`requested_at`) to `playing`; returns the promoted id. -/
def completeRoute (songId : String) (db : SongsDB) : Option String × SongsDB :=
  let db1 := updateSongStatus songId .completed none db
  match (getQueue db1).find? (fun s => s.status == .ready) with
  | some next => (some next.id, updateSongStatus next.id .playing none db1)
  | none => (none, db1)

/-! ### Job Orchestrator (`processKaraokeSong` in `autonomousProcessor.ts`)

The pipeline body is a state-passing computation over the songs table, the
cache table and a trace of the `updateSongStatus` writes it performs.  Its
external collaborators are oracles in an `Env` record.  A thrown error
carries the state at the throw point, matching the `try/catch`. -/

/-- One `updateSongStatus` write, as recorded in the write trace. -/
structure WriteEv where
  id : String
  status : SongStatus
  progress : Option ℤ
deriving DecidableEq, Repr

/-- The state the pipeline body touches.  The in-flight job registry is
only touched by the wrapper (`processingJobs.set` on entry, `delete` in
the `finally`), never by the body, so it lives outside this core. -/
structure Core where
  songs : SongsDB
  cache : CacheDB
  trace : List WriteEv
deriving DecidableEq, Repr

/-- `AutonomousProcessingOptions` as supplied by a caller; `none` models
an absent (undefined) field. -/
structure Options where
  quality : Option String := none
  useCache : Option Bool := none
  maxTorrentWaitTime : Option Nat := none
  maxYouTubeWaitTime : Option Nat := none
deriving DecidableEq, Repr

/-- The defaulted options stored in the job registry entry
(`quality: 'high', ...options, useCache ?? true, timeouts ?? defaults`). -/
structure JobOptions where
  quality : Option String
  useCache : Bool
  maxTorrentWaitTime : Nat
  maxYouTubeWaitTime : Nat
deriving DecidableEq, Repr

def mergeOptions (o : Options) : JobOptions :=
  { quality := some (o.quality.getD "high")
    useCache := o.useCache.getD true
    maxTorrentWaitTime := o.maxTorrentWaitTime.getD 300000
    maxYouTubeWaitTime := o.maxYouTubeWaitTime.getD 120000 }

/-- The module-level `processingJobs` map. -/
abbrev Jobs := List (String × JobOptions)

def setJob (id : String) (j : JobOptions) (js : Jobs) : Jobs :=
  if js.any (fun p => p.1 == id) then
    js.map (fun p => if p.1 == id then (id, j) else p)
  else js ++ [(id, j)]

def removeJob (id : String) (js : Jobs) : Jobs :=
  js.filter (fun p => !(p.1 == id))

structure TorrentInfo where
  magnet : String
  title : String
deriving DecidableEq, Repr

structure YtVideo where
  filePath : String
  videoId : String
deriving DecidableEq, Repr

/-- Oracle outcomes of the external collaborator calls made by one run.
`Except.error` is a rejected promise (including a lost timeout race); the
`*Progress` lists are the values the collaborator feeds to its
`onProgress` callback before settling. -/
structure Env where
  fs : Fs
  sizeOf : String → Nat
  now : Nat
  torrentFind : Option TorrentInfo
  torrentProgress : List ℚ
  torrentOutcome : Except String String
  uploadsFile : Option String
  youtubeOutcome : Except String (Option YtVideo)
  sepProgress : List ℚ
  sepOutcome : Except String String
  lyricsResult : Option String
  syncOutcome : Except String Unit
  writeLrcOutcome : Except String Unit
  replaceAudioOutcome : Except String Unit
  optimizeOutcome : Except String String
  generateVideoOutcome : Except String Unit
  lyricVideoOutcome : Except String Unit

/-- Decidable equality for `Except`, used to evaluate oracle outcomes in
concrete witnesses. -/
instance {α β : Type} [DecidableEq α] [DecidableEq β] : DecidableEq (Except α β) := fun a b =>
  match a, b with
  | .ok x, .ok y =>
    if h : x = y then .isTrue (by rw [h]) else .isFalse (fun hc => h (by cases hc; rfl))
  | .error x, .error y =>
    if h : x = y then .isTrue (by rw [h]) else .isFalse (fun hc => h (by cases hc; rfl))
  | .ok _, .error _ => .isFalse (fun hc => Except.noConfusion hc)
  | .error _, .ok _ => .isFalse (fun hc => Except.noConfusion hc)

/-- Split a character list at `/` separators. -/
def splitOnSlash : List Char → List (List Char)
  | [] => [[]]
  | c :: cs =>
    let r := splitOnSlash cs
    if c = '/' then [] :: r
    else
      match r with
      | [] => [[c]]
      | h :: t => (c :: h) :: t

/-- `path.dirname`, restricted to the slash-separated relative paths the
pipeline builds (drop the final path component). -/
def jsDirname (p : String) : String :=
  let parts := splitOnSlash p.data
  if parts.length ≤ 1 then "."
  else String.mk (List.intercalate ['/'] parts.dropLast)

/-- The pure effect of one `KaraokeDB.updateSongStatus` call, with the
write recorded in the trace. -/
def coreWriteStatus (id : String) (st : SongStatus) (p : Option ℤ) (c : Core) : Core :=
  { c with songs := updateSongStatus id st p c.songs, trace := c.trace ++ [⟨id, st, p⟩] }

/-- The pure effect of one `KaraokeDB.updateSongPaths` call. -/
def coreWritePaths (id : String) (u : PathsUpdate) (c : Core) : Core :=
  { c with songs := updateSongPaths id u c.songs }

/-- Deliver a stage's `onProgress` events: each one is an
`updateSongStatus(songId, 'processing', overallProgress)` write. -/
def fireProgress (songId : String) (f : ℚ → ℤ) (ps : List ℚ) (c : Core) : Core :=
  ps.foldl (fun c p => coreWriteStatus songId .processing (some (f p)) c) c

/-- STEP 2 after the initial progress-10 write: try the torrent result
(progress callbacks fire while it downloads, a rejection — including the
lost timeout race — is caught and yields no path), then fall back to the
uploads directory. -/
def acquireAudio (env : Env) (songId : String) (c : Core) : Core × Option String :=
  match env.torrentFind with
  | none => (c, env.uploadsFile)
  | some _ =>
    let c := fireProgress songId (fun p => 10 + jsRound (p * 0.15)) env.torrentProgress c
    match env.torrentOutcome with
    | .ok p => (c, some p)
    | .error _ => (c, env.uploadsFile)

/-- The audio path STEP 2 acquires (independent of the state writes):
the torrent download result when a torrent was found and the download
resolved, otherwise the uploads-directory fallback. -/
def acquiredAudio (env : Env) : Option String :=
  match env.torrentFind with
  | none => env.uploadsFile
  | some _ =>
    match env.torrentOutcome with
    | .ok p => some p
    | .error _ => env.uploadsFile

/-- The state effect of STEP 2: the torrent progress callbacks fire only
when a torrent result exists. -/
def acquireCore (env : Env) (songId : String) (c : Core) : Core :=
  match env.torrentFind with
  | none => c
  | some _ => fireProgress songId (fun p => 10 + jsRound (p * 0.15)) env.torrentProgress c

/-- STEP 3's outcome: the downloaded karaoke video, with a rejection
(including the lost timeout race) caught and treated as no video. -/
def ytVideoOf (env : Env) : Option YtVideo :=
  match env.youtubeOutcome with
  | .ok r => r
  | .error _ => none

/-- The error STEP 5's lyric block throws, if any.  With lyrics found,
`smartSynchronize` runs first: its internal catch awaits
`getAudioDuration`, so an ffprobe rejection propagates out of the catch
unguarded; then `fs.writeFileSync` of the `.lrc` file can throw.  With no
lyrics the block is skipped and nothing can throw. -/
def syncLyricsThrow (env : Env) : Option String :=
  match env.lyricsResult with
  | none => none
  | some _ =>
    match env.syncOutcome with
    | .error e => some e
    | .ok _ =>
      match env.writeLrcOutcome with
      | .error e => some e
      | .ok _ => none

/-- The generative fallback of STEP 6: `generateKaraokeVideo` when a
lyrics file was produced, otherwise `createLyricVideo([], ...)` with no
lyrics at all.  The lyrics branch re-invokes `smartSynchronize` on the
same `(lyrics, instrumental)` pair; the deterministic oracle gives that
second call the settling of the first, which already resolved (`.ok`)
when this branch is reachable — STEP 5 would have thrown otherwise. -/
def composeGeneratedStep (env : Env) (instrumental : String)
    (lyricsPath lyrics : Option String) : Except String String :=
  let fvp := jsDirname instrumental ++ "/generated_karaoke.mp4"
  if lyricsPath.isSome ∧ lyrics.isSome then
    match env.generateVideoOutcome with
    | .error e => .error e
    | .ok _ => .ok fvp
  else
    match env.lyricVideoOutcome with
    | .error e => .error e
    | .ok _ => .ok fvp

/-- STEP 6: audio replacement into the downloaded karaoke video when one
exists on disk (then streaming optimization), otherwise the generative
fallback.  Either strategy's rejection propagates (fatal). -/
def composeVideoStep (env : Env) (instrumental : String)
    (karaokeVideoPath lyricsPath lyrics : Option String) : Except String String :=
  match karaokeVideoPath with
  | some kvp =>
    if env.fs kvp then
      let fvp := jsDirname instrumental ++ "/final_karaoke.mp4"
      match env.replaceAudioOutcome with
      | .error e => .error e
      | .ok _ =>
        match env.optimizeOutcome with
        | .error e => .error e
        | .ok opt => .ok (if opt = fvp then fvp else opt)
    else composeGeneratedStep env instrumental lyricsPath lyrics
  | none => composeGeneratedStep env instrumental lyricsPath lyrics

/-- Result of the `try` body: normal completion or a thrown error, either
way with the state reached so far. -/
inductive BodyResult
  | done (c : Core)
  | thrown (e : String) (c : Core)
deriving DecidableEq, Repr

def BodyResult.core : BodyResult → Core
  | .done c => c
  | .thrown _ c => c

/-- The `try` body of `processKaraokeSong`, STEP 1 through STEP 8,
translated statement by statement with explicit state passing. -/
def runBody (env : Env) (songId : String) (options : Options) (c : Core) : BodyResult :=
  match getSong c.songs songId with
  | none => .thrown "Song not found" c
  | some song =>
  let songTitle := song.songTitle
  let artist := song.artist
  -- STEP 1: check cache first
  let c := coreWriteStatus songId .processing (some 5) c
  let res := checkCache env.fs env.now songTitle artist (jsStr options.quality) c.cache
  let c := { c with cache := res.2 }
  -- `if (cached && options.useCache)`: note the *raw* options field
  match res.1, options.useCache with
  | some hit, some true =>
    let c := coreWritePaths songId
      { original := hit.files.original, instrumental := hit.files.instrumental,
        lyrics := hit.files.lyrics, video := hit.files.video } c
    .done (coreWriteStatus songId .ready (some 100) c)
  | _, _ =>
  -- STEP 2: acquire audio via torrents, uploads fallback
  let c := coreWriteStatus songId .processing (some 10) c
  let acq := acquireAudio env songId c
  let c := acq.1
  match acq.2 with
  | none => .thrown ("Could not acquire audio for: " ++ artist ++ " - " ++ songTitle) c
  | some audioPath =>
  let c := coreWritePaths songId { original := some audioPath } c
  -- STEP 3: search and download YouTube karaoke video (rejection caught)
  let c := coreWriteStatus songId .processing (some 30) c
  let yt := ytVideoOf env
  -- STEP 4: vocal separation (rejection fatal)
  let c := coreWriteStatus songId .processing (some 45) c
  let c := fireProgress songId (fun p => 45 + jsRound (p * 0.25)) env.sepProgress c
  match env.sepOutcome with
  | .error e => .thrown e c
  | .ok instrumental =>
  let c := coreWritePaths songId { instrumental := some instrumental } c
  -- STEP 5: fetch and sync lyrics.  `fetchLyrics` never rejects and a
  -- null result is only logged, but with lyrics found a
  -- `smartSynchronize` rejection (ffprobe failing inside its fallback) or
  -- a `writeFileSync` throw is unguarded and fatal
  let c := coreWriteStatus songId .processing (some 75) c
  let lyrics := env.lyricsResult
  match syncLyricsThrow env with
  | some e => .thrown e c
  | none =>
  let lp : Option String :=
    match lyrics with
    | some _ => some (jsDirname instrumental ++ "/lyrics.lrc")
    | none => none
  let c :=
    match lp with
    | some q => coreWritePaths songId { lyrics := some q } c
    | none => c
  -- STEP 6: create the final karaoke video
  let c := coreWriteStatus songId .processing (some 85) c
  match composeVideoStep env instrumental (yt.map (fun v => v.filePath)) lp lyrics with
  | .error e => .thrown e c
  | .ok finalVideoPath =>
  let c := coreWritePaths songId { video := some finalVideoPath } c
  -- STEP 7: add to cache
  let produced : CacheFiles :=
    { original := some audioPath, instrumental := some instrumental,
      lyrics := lp, video := some finalVideoPath }
  let cache2 := addToCache env.fs env.sizeOf env.now songTitle artist
    (jsStr options.quality) produced (yt.map (fun v => v.videoId)) c.cache
  let c := { c with cache := cache2 }
  -- STEP 8: complete
  .done (coreWriteStatus songId .ready (some 100) c)


/-- Full orchestrator state: pipeline core plus the job registry. -/
structure St where
  core : Core
  jobs : Jobs
deriving DecidableEq, Repr

/-- `processKaraokeSong`: register the (defaulted) job, run the body; the
`catch` sets `failed`/0, the `finally` releases the registry slot. -/
def processKaraokeSong (env : Env) (songId : String) (options : Options) (s : St) : St :=
  let jobs1 := setJob songId (mergeOptions options) s.jobs
  let core1 :=
    match runBody env songId options s.core with
    | .done c => c
    | .thrown _ c => coreWriteStatus songId .failed (some 0) c
  { core := core1, jobs := removeJob songId jobs1 }

/-! ## Verified properties -/

/-- The cache key depends only on the normalized concatenation. -/
lemma generateCacheKey_congr (t a q t' a' q' : String)
    (h : normalizedCacheInput t a q = normalizedCacheInput t' a' q') :
    generateCacheKey t a q = generateCacheKey t' a' q' := by
  unfold generateCacheKey
  rw [h]

/-- C2, counterexample.  The claim fails in both conjuncts: the triples
`("a_b", "c", "high")` and `("a", "b_c", "high")` are distinct after
case-folding and trimming yet share a fingerprint (the `_` separator glues
title and artist ambiguously), and the quality input is *not*
case-folded, so `"High"` and `"high"` give different fingerprints. -/
theorem c2_fingerprint_counterexample :
    generateCacheKey "a_b" "c" "high" = generateCacheKey "a" "b_c" "high" ∧
    ¬(jsTrim (jsToLower "a_b") = jsTrim (jsToLower "a") ∧
      jsTrim (jsToLower "c") = jsTrim (jsToLower "b_c")) ∧
    generateCacheKey "t" "a" "High" ≠ generateCacheKey "t" "a" "high" := by
  refine ⟨generateCacheKey_congr _ _ _ _ _ _ (by decide), by decide, by decide⟩

/-- C2 (amended): the fingerprint is deterministic and invariant under
letter-case and leading/trailing-whitespace changes of the *title and
artist* inputs (quality is incorporated verbatim); equality of the
normalized concatenations — not distinctness of the normalized triples —
governs fingerprint equality. -/
theorem c2_fingerprint_normalization (t t' a a' q : String)
    (ht : jsTrim (jsToLower t) = jsTrim (jsToLower t'))
    (ha : jsTrim (jsToLower a) = jsTrim (jsToLower a')) :
    generateCacheKey t a q = generateCacheKey t' a' q := by
  apply generateCacheKey_congr
  unfold normalizedCacheInput
  rw [ht, ha]

theorem c2_fingerprint_normalization_witness :
    jsTrim (jsToLower "  Hello ") = jsTrim (jsToLower "hello") ∧
    jsTrim (jsToLower "WOrld ") = jsTrim (jsToLower "world") ∧
    generateCacheKey "  Hello " "WOrld " "high" = generateCacheKey "hello" "world" "high" :=
  ⟨by decide, by decide,
    c2_fingerprint_normalization "  Hello " "hello" "WOrld " "world" "high"
      (by decide) (by decide)⟩

lemma findRow_updateLastAccessed_ne (k k' : String) (now : Nat) (db : CacheDB)
    (h : k' ≠ k) :
    findRow (updateLastAccessed k now db) k' = findRow db k' := by
  induction db with
  | nil => rfl
  | cons r rest ih =>
    simp only [updateLastAccessed, List.map_cons]
    simp only [findRow, updateLastAccessed] at ih ⊢
    by_cases hb : (r.cacheKey == k) = true
    · have hp : (r.cacheKey == k') = false := by
        apply beq_eq_false_iff_ne.mpr
        intro hc
        exact h (by rw [← hc, beq_iff_eq.mp hb])
      rw [if_pos hb]
      rw [List.find?_cons_of_neg (p := fun (s : CacheRow) => s.cacheKey == k') _ (by simp [hp]),
          List.find?_cons_of_neg (p := fun (s : CacheRow) => s.cacheKey == k') _ (by simp [hp])]
      exact ih
    · rw [if_neg hb]
      cases hp : (r.cacheKey == k') with
      | true =>
        rw [List.find?_cons_of_pos (p := fun (s : CacheRow) => s.cacheKey == k') _ hp,
            List.find?_cons_of_pos (p := fun (s : CacheRow) => s.cacheKey == k') _ hp]
      | false =>
        rw [List.find?_cons_of_neg (p := fun (s : CacheRow) => s.cacheKey == k') _ (by simp [hp]),
            List.find?_cons_of_neg (p := fun (s : CacheRow) => s.cacheKey == k') _ (by simp [hp])]
        exact ih

lemma findRow_removeFromCache_ne (k k' : String) (db : CacheDB) (h : k' ≠ k) :
    findRow (removeFromCache k db) k' = findRow db k' := by
  induction db with
  | nil => rfl
  | cons r rest ih =>
    simp only [removeFromCache, List.filter_cons]
    simp only [findRow, removeFromCache] at ih ⊢
    by_cases hb : (r.cacheKey == k) = true
    · have hp : (r.cacheKey == k') = false := by
        apply beq_eq_false_iff_ne.mpr
        intro hc
        exact h (by rw [← hc, beq_iff_eq.mp hb])
      simp only [hb, Bool.not_true, Bool.false_eq_true, if_false]
      rw [List.find?_cons_of_neg (p := fun (s : CacheRow) => s.cacheKey == k') _ (by simp [hp])]
      exact ih
    · simp only [Bool.not_eq_true] at hb
      simp only [hb, Bool.not_false, if_true]
      cases hp : (r.cacheKey == k') with
      | true =>
        rw [List.find?_cons_of_pos (p := fun (s : CacheRow) => s.cacheKey == k') _ hp,
            List.find?_cons_of_pos (p := fun (s : CacheRow) => s.cacheKey == k') _ hp]
      | false =>
        rw [List.find?_cons_of_neg (p := fun (s : CacheRow) => s.cacheKey == k') _ (by simp [hp]),
            List.find?_cons_of_neg (p := fun (s : CacheRow) => s.cacheKey == k') _ (by simp [hp])]
        exact ih

lemma findRow_removeFromCache_self (k : String) (db : CacheDB) :
    findRow (removeFromCache k db) k = none := by
  rw [findRow, List.find?_eq_none]
  intro r hr
  rw [removeFromCache, List.mem_filter] at hr
  simpa using hr.2



lemma presentFile_eq_some (fs : Fs) (o : Option String) (p : String)
    (h : presentFile fs o = some p) : o = some p ∧ fs p = true := by
  cases o with
  | none => simp [presentFile] at h
  | some q =>
    cases hq : fs q with
    | false => simp [presentFile, hq] at h
    | true =>
      simp [presentFile, hq] at h
      subst h
      exact ⟨rfl, hq⟩

theorem c3_lookup_integrity (fs : Fs) (now : Nat) (t a q : String) (db : CacheDB) :
    (∀ e, (checkCache fs now t a q db).1 = some e →
      ∃ pi pv, e.files.instrumental = some pi ∧ fs pi = true ∧
               e.files.video = some pv ∧ fs pv = true) ∧
    (∀ row, findRow db (generateCacheKey t a q) = some row →
      (presentFile fs row.instrumentalPath = none ∨ presentFile fs row.videoPath = none) →
      (checkCache fs now t a q db).1 = none ∧
      findRow (checkCache fs now t a q db).2 (generateCacheKey t a q) = none) := by
  constructor
  · intro e he
    simp only [checkCache] at he
    cases hf : findRow db (generateCacheKey t a q) with
    | none => rw [hf] at he; simp at he
    | some row =>
      rw [hf] at he
      by_cases hm : ((presentFile fs row.instrumentalPath).isNone ||
                     (presentFile fs row.videoPath).isNone) = true
      · simp only [hm, if_true] at he
        simp at he
      · simp only [hm, Bool.false_eq_true, if_false] at he
        simp only [Bool.or_eq_true, Option.isNone_iff_eq_none, not_or] at hm
        obtain ⟨hi, hv⟩ := hm
        obtain ⟨pi, hpi⟩ := Option.ne_none_iff_exists'.mp hi
        obtain ⟨pv, hpv⟩ := Option.ne_none_iff_exists'.mp hv
        obtain ⟨-, hfsi⟩ := presentFile_eq_some fs row.instrumentalPath pi hpi
        obtain ⟨-, hfsv⟩ := presentFile_eq_some fs row.videoPath pv hpv
        obtain rfl := (Option.some.injEq _ _).mp he
        exact ⟨pi, pv, hpi, hfsi, hpv, hfsv⟩
  · intro row hrow hmiss
    have hm : ((presentFile fs row.instrumentalPath).isNone ||
               (presentFile fs row.videoPath).isNone) = true := by
      rcases hmiss with hmi | hmv
      · simp [hmi]
      · simp [hmv]
    constructor
    · simp only [checkCache, hrow, hm, if_true]
    · simp only [checkCache, hrow, hm, if_true]
      exact findRow_removeFromCache_self _ _

theorem c10_lookup_frame (fs : Fs) (now : Nat) (t a q : String) (db : CacheDB) :
    (findRow db (generateCacheKey t a q) = none → (checkCache fs now t a q db).2 = db) ∧
    (∀ row, findRow db (generateCacheKey t a q) = some row →
      (checkCache fs now t a q db).2 =
        (if (presentFile fs row.instrumentalPath).isNone ||
            (presentFile fs row.videoPath).isNone
         then removeFromCache (generateCacheKey t a q)
                (updateLastAccessed (generateCacheKey t a q) now db)
         else updateLastAccessed (generateCacheKey t a q) now db) ∧
      (∀ k', k' ≠ generateCacheKey t a q →
        findRow (checkCache fs now t a q db).2 k' = findRow db k')) := by
  constructor
  · intro hnone
    simp only [checkCache, hnone]
  · intro row hrow
    by_cases hm : ((presentFile fs row.instrumentalPath).isNone ||
                   (presentFile fs row.videoPath).isNone) = true
    · have h2 : (checkCache fs now t a q db).2 =
          removeFromCache (generateCacheKey t a q)
            (updateLastAccessed (generateCacheKey t a q) now db) := by
        simp only [checkCache, hrow, hm, if_true]
      refine ⟨?_, fun k' hk' => ?_⟩
      · rw [h2, if_pos hm]
      · rw [h2, findRow_removeFromCache_ne _ _ _ hk',
            findRow_updateLastAccessed_ne _ _ _ _ hk']
    · have h2 : (checkCache fs now t a q db).2 =
          updateLastAccessed (generateCacheKey t a q) now db := by
        simp only [checkCache, hrow, hm, Bool.false_eq_true, if_false]
      refine ⟨?_, fun k' hk' => ?_⟩
      · rw [h2, if_neg (by simpa using hm)]
      · rw [h2, findRow_updateLastAccessed_ne _ _ _ _ hk']


/-- Filesystem oracle for the witnesses: every path exists except
`missing.wav`. -/
def fsHit : Fs := fun p => p != "missing.wav"

def rowGood : CacheRow where
  cacheKey := generateCacheKey "hello" "adele" "high"
  title := "hello"
  artist := "adele"
  originalAudioPath := some "c/o.mp3"
  instrumentalPath := some "c/i.wav"
  lyricsPath := none
  videoPath := some "c/v.mp4"
  youtubeVideoId := none
  processingQuality := some "high"
  createdAt := 1
  lastAccessed := 1
  fileSize := 42

def rowStale : CacheRow := { rowGood with instrumentalPath := some "missing.wav" }

def rowOther : CacheRow := { rowGood with cacheKey := "otherkey" }

def hitEntry : ProcessedSong where
  cacheKey := generateCacheKey "hello" "adele" "high"
  files :=
    { original := some "c/o.mp3", instrumental := some "c/i.wav",
      lyrics := none, video := some "c/v.mp4" }
  metadata :=
    { title := "hello", artist := "adele", quality := some "high", youtubeVideoId := none }

theorem c3_lookup_integrity_witness :
    (∃ pi pv, hitEntry.files.instrumental = some pi ∧ fsHit pi = true ∧
              hitEntry.files.video = some pv ∧ fsHit pv = true) ∧
    ((checkCache fsHit 9 "Hello" "Adele" "high" [rowStale]).1 = none ∧
     findRow (checkCache fsHit 9 "Hello" "Adele" "high" [rowStale]).2
       (generateCacheKey "Hello" "Adele" "high") = none) :=
  ⟨(c3_lookup_integrity fsHit 9 "Hello" "Adele" "high" [rowGood]).1 hitEntry (by decide),
   (c3_lookup_integrity fsHit 9 "Hello" "Adele" "high" [rowStale]).2 rowStale (by decide)
     (Or.inl (by decide))⟩

theorem c10_lookup_frame_witness :
    (checkCache fsHit 9 "x" "y" "z" []).2 = [] ∧
    (checkCache fsHit 9 "Hello" "Adele" "high" [rowStale]).2 =
      (if (presentFile fsHit rowStale.instrumentalPath).isNone ||
          (presentFile fsHit rowStale.videoPath).isNone
       then removeFromCache (generateCacheKey "Hello" "Adele" "high")
              (updateLastAccessed (generateCacheKey "Hello" "Adele" "high") 9 [rowStale])
       else updateLastAccessed (generateCacheKey "Hello" "Adele" "high") 9 [rowStale]) ∧
    findRow (checkCache fsHit 9 "Hello" "Adele" "high" [rowGood, rowOther]).2 "otherkey" =
      findRow [rowGood, rowOther] "otherkey" :=
  ⟨(c10_lookup_frame fsHit 9 "x" "y" "z" []).1 (by decide),
   ((c10_lookup_frame fsHit 9 "Hello" "Adele" "high" [rowStale]).2 rowStale (by decide)).1,
   ((c10_lookup_frame fsHit 9 "Hello" "Adele" "high" [rowGood, rowOther]).2 rowGood
       (by decide)).2 "otherkey" (by decide)⟩

instance : IsTotal Song (fun a b : Song => a.requestedAt ≤ b.requestedAt) :=
  ⟨fun a b => Nat.le_total a.requestedAt b.requestedAt⟩

instance : IsTrans Song (fun a b : Song => a.requestedAt ≤ b.requestedAt) :=
  ⟨fun _ _ _ => Nat.le_trans⟩

/-- The number of songs in `playing` state. -/
def countPlaying (db : SongsDB) : Nat := db.countP (fun s => s.status == .playing)

theorem c9_queue_characterization (db : SongsDB) :
    (∀ s, s ∈ getQueue db ↔ s ∈ db ∧ activeStatus s.status = true) ∧
    (getQueue db).Sorted (fun a b : Song => a.requestedAt ≤ b.requestedAt) := by
  constructor
  · intro s
    rw [getQueue, List.mem_insertionSort, List.mem_filter]
  · exact List.sorted_insertionSort _ _

def c9FailedSong : Song where
  id := "f1"
  userId := "u1"
  songTitle := "x"
  artist := "y"
  status := .failed
  processingProgress := 0
  requestedAt := 3
  originalAudioPath := none
  instrumentalPath := none
  lyricsPath := none
  videoPath := none

theorem c9_queue_counterexample :
    getQueue [c9FailedSong] = [] ∧ c9FailedSong.status ≠ .completed := by decide


lemma updateSongStatus_map_id (id : String) (st : SongStatus) (p : Option ℤ)
    (db : SongsDB) :
    (updateSongStatus id st p db).map Song.id = db.map Song.id := by
  induction db with
  | nil => rfl
  | cons s rest ih =>
    simp only [updateSongStatus, List.map_cons] at ih ⊢
    refine congrArg₂ List.cons ?_ ih
    by_cases hsi : (s.id == id) = true
    · cases p <;> simp [hsi]
    · simp [hsi]

lemma countP_id_le_one (db : SongsDB) (nid : String)
    (h : (db.map Song.id).Nodup) :
    db.countP (fun s => s.id == nid) ≤ 1 := by
  induction db with
  | nil => simp
  | cons s rest ih =>
    rw [List.map_cons, List.nodup_cons] at h
    by_cases hsi : (s.id == nid) = true
    · rw [List.countP_cons_of_pos (p := fun (s : Song) => s.id == nid) _ hsi]
      have hz : rest.countP (fun s => s.id == nid) = 0 := by
        rw [List.countP_eq_zero]
        intro x hx hpx
        exact h.1 (by
          rw [List.mem_map]
          exact ⟨x, hx, by rw [beq_iff_eq.mp hpx, beq_iff_eq.mp hsi]⟩)
      omega
    · rw [List.countP_cons_of_neg (p := fun (s : Song) => s.id == nid) _ hsi]
      exact ih h.2

lemma countPlaying_complete_all (cid : String) (db : SongsDB)
    (h : ∀ s ∈ db, s.status = .playing → s.id = cid) :
    countPlaying (updateSongStatus cid .completed none db) = 0 := by
  rw [countPlaying, List.countP_eq_zero]
  intro x hx
  rw [updateSongStatus, List.mem_map] at hx
  obtain ⟨s, hs, rfl⟩ := hx
  by_cases hsi : (s.id == cid) = true
  · simp [hsi]
  · simp only [hsi, Bool.false_eq_true, if_false]
    intro hplay
    exact hsi (beq_iff_eq.mpr (h s hs (beq_iff_eq.mp hplay)))

lemma countPlaying_promote (nid : String) (db : SongsDB)
    (h : countPlaying db = 0) :
    countPlaying (updateSongStatus nid .playing none db) =
      db.countP (fun s => s.id == nid) := by
  induction db with
  | nil => rfl
  | cons s rest ih =>
    have hs0 : (s.status == SongStatus.playing) = false := by
      by_contra hx
      rw [Bool.not_eq_false] at hx
      rw [countPlaying,
          List.countP_cons_of_pos (p := fun (t : Song) => t.status == SongStatus.playing) _ hx] at h
      omega
    have hrest : countPlaying rest = 0 := by
      rw [countPlaying,
          List.countP_cons_of_neg (p := fun (t : Song) => t.status == SongStatus.playing) _
            (by simp [hs0])] at h
      exact h
    have ih' := ih hrest
    simp only [updateSongStatus, countPlaying, List.map_cons, List.countP_cons] at ih' ⊢
    rw [ih']
    by_cases hsi : (s.id == nid) = true
    · simp [hsi]
    · simp [hsi, hs0]

lemma two_le_countP (p : Song → Bool) (l : SongsDB) (a b : Song)
    (ha : a ∈ l) (hb : b ∈ l) (hab : a ≠ b) (hpa : p a = true) (hpb : p b = true) :
    2 ≤ l.countP p := by
  obtain ⟨l1, l2, rfl⟩ := List.append_of_mem ha
  rw [List.countP_append, List.countP_cons_of_pos _ _ hpa]
  rcases List.mem_append.mp hb with hb1 | hb2
  · have hpos : 0 < l1.countP p := List.countP_pos_iff.mpr ⟨b, hb1, hpb⟩
    omega
  · rcases List.mem_cons.mp hb2 with rfl | hb2x
    · exact absurd rfl hab
    · have hpos : 0 < l2.countP p := List.countP_pos_iff.mpr ⟨b, hb2x, hpb⟩
      omega

lemma countPlaying_complete_current (db : SongsDB) (cur : Song)
    (hcount : countPlaying db ≤ 1) (hcur : getCurrentSong db = some cur) :
    countPlaying (updateSongStatus cur.id .completed none db) = 0 := by
  have hcur2 : db.find? (fun s => s.status == SongStatus.playing) = some cur := hcur
  have hmem : cur ∈ db := List.mem_of_find?_eq_some hcur2
  have hplay := List.find?_some hcur2
  apply countPlaying_complete_all
  intro s hs hsp
  by_contra hne
  have hsc : s ≠ cur := fun hc => hne (by rw [hc])
  have h2 : 2 ≤ db.countP (fun s => s.status == SongStatus.playing) :=
    two_le_countP _ db s cur hs hmem hsc (beq_iff_eq.mpr hsp) hplay
  rw [countPlaying] at hcount
  omega

lemma countPlaying_zero_of_no_current (db : SongsDB)
    (h : getCurrentSong db = none) : countPlaying db = 0 := by
  rw [countPlaying, List.countP_eq_zero]
  intro x hx
  rw [getCurrentSong, List.find?_eq_none] at h
  exact fun hp => (h x hx) hp

/-- `find?` on a sorted list returns a minimal element among those
satisfying the predicate. -/
lemma find?_sorted_min (r : Song → Song → Prop) (p : Song → Bool) (l : List Song)
    (hs : l.Sorted r) (hrefl : ∀ a, r a a) (n : Song) (h : l.find? p = some n) :
    ∀ x ∈ l, p x = true → r n x := by
  induction l with
  | nil => cases h
  | cons a rest ih =>
    cases hp : p a with
    | false =>
      rw [List.find?_cons_of_neg _ (by simp [hp])] at h
      intro x hx hpx
      rcases List.mem_cons.mp hx with rfl | hx2
      · rw [hpx] at hp; cases hp
      · exact ih ((List.sorted_cons).mp hs).2 h x hx2 hpx
    | true =>
      rw [List.find?_cons_of_pos _ hp] at h
      obtain rfl := (Option.some.injEq _ _).mp h
      intro x hx hpx
      rcases List.mem_cons.mp hx with rfl | hx2
      · exact hrefl _
      · exact ((List.sorted_cons).mp hs).1 x hx2


/-- C7 (amended): `start` preserves the at-most-one-playing invariant and
completes the current playing song before marking the target playing;
`complete` unconditionally completes the *given* song and then promotes
the earliest-requested ready song — it preserves at-most-one-playing only
when every playing song is the one being completed. -/
theorem c7_queue_advance (db : SongsDB)
    (hids : (db.map Song.id).Nodup) (hcount : countPlaying db ≤ 1) :
    (∀ id, countPlaying (startRoute id db).2 ≤ 1) ∧
    (∀ id song, getSong db id = some song → song.status = .ready →
      (startRoute id db).2 =
        updateSongStatus id .playing none
          (match getCurrentSong db with
           | some cur => updateSongStatus cur.id .completed none db
           | none => db)) ∧
    (∀ cid, (∀ s ∈ db, s.status = .playing → s.id = cid) →
      countPlaying (completeRoute cid db).2 ≤ 1) ∧
    (∀ cid n,
      (getQueue (updateSongStatus cid .completed none db)).find?
          (fun s => s.status == .ready) = some n →
      n ∈ updateSongStatus cid .completed none db ∧ n.status = .ready ∧
      (∀ x ∈ updateSongStatus cid .completed none db,
         x.status = .ready → n.requestedAt ≤ x.requestedAt) ∧
      (completeRoute cid db).1 = some n.id ∧
      (completeRoute cid db).2 =
        updateSongStatus n.id .playing none (updateSongStatus cid .completed none db)) := by
  refine ⟨?_, ?_, ?_, ?_⟩
  · intro id
    cases hget : getSong db id with
    | none => simpa [startRoute, hget] using hcount
    | some song =>
      by_cases hr : song.status = SongStatus.ready
      · cases hc : getCurrentSong db with
        | some cur =>
          have h0 : countPlaying (updateSongStatus cur.id .completed none db) = 0 :=
            countPlaying_complete_current db cur hcount hc
          have hids1 : ((updateSongStatus cur.id .completed none db).map Song.id).Nodup := by
            rw [updateSongStatus_map_id]; exact hids
          simp only [startRoute, hget, hr, ne_eq, not_true_eq_false, if_false, hc]
          rw [countPlaying_promote _ _ h0]
          exact countP_id_le_one _ _ hids1
        | none =>
          have h0 : countPlaying db = 0 := countPlaying_zero_of_no_current db hc
          simp only [startRoute, hget, hr, ne_eq, not_true_eq_false, if_false, hc]
          rw [countPlaying_promote _ _ h0]
          exact countP_id_le_one _ _ hids
      · simpa [startRoute, hget, hr] using hcount
  · intro id song hget hr
    simp [startRoute, hget, hr]
  · intro cid hall
    have h0 : countPlaying (updateSongStatus cid .completed none db) = 0 :=
      countPlaying_complete_all cid db hall
    have hids1 : ((updateSongStatus cid .completed none db).map Song.id).Nodup := by
      rw [updateSongStatus_map_id]; exact hids
    cases hfind : (getQueue (updateSongStatus cid .completed none db)).find?
        (fun s => s.status == .ready) with
    | none => simpa [completeRoute, hfind] using h0.le.trans (Nat.zero_le 1)
    | some n =>
      simp only [completeRoute, hfind]
      rw [countPlaying_promote _ _ h0]
      exact countP_id_le_one _ _ hids1
  · intro cid n hfind
    have hmemq : n ∈ getQueue (updateSongStatus cid .completed none db) :=
      List.mem_of_find?_eq_some hfind
    have hready := List.find?_some hfind
    have hmem : n ∈ updateSongStatus cid .completed none db := by
      rw [getQueue, List.mem_insertionSort, List.mem_filter] at hmemq
      exact hmemq.1
    refine ⟨hmem, beq_iff_eq.mp hready, ?_, ?_, ?_⟩
    · intro x hx hxr
      have hxq : x ∈ getQueue (updateSongStatus cid .completed none db) := by
        rw [getQueue, List.mem_insertionSort, List.mem_filter]
        exact ⟨hx, by simp [activeStatus, hxr]⟩
      exact find?_sorted_min _ _ _
        (List.sorted_insertionSort _ _) (fun a => Nat.le_refl _) n hfind x hxq
        (beq_iff_eq.mpr hxr)
    · simp [completeRoute, hfind]
    · simp [completeRoute, hfind]

def c7Song (i : String) (st : SongStatus) (t : Nat) : Song :=
  { id := i, userId := "u", songTitle := i, artist := "a", status := st,
    processingProgress := 0, requestedAt := t, originalAudioPath := none,
    instrumentalPath := none, lyricsPath := none, videoPath := none }

def c7db : SongsDB := [c7Song "A" .ready 1, c7Song "B" .ready 2, c7Song "C" .queued 3]

/-- C7, counterexample: from a reachable pipeline state with no playing
song, `start A` then `complete C` (the complete handler does not check
that `C` is the playing song) leaves *two* songs playing. -/
theorem c7_counterexample :
    countPlaying c7db = 0 ∧
    countPlaying (completeRoute "C" (startRoute "A" c7db).2).2 = 2 := by decide

def c7db2 : SongsDB := [c7Song "A" .ready 1, c7Song "P" .playing 2, c7Song "B" .queued 3]

theorem c7_queue_advance_witness :
    countPlaying (startRoute "A" c7db2).2 ≤ 1 ∧
    countPlaying (completeRoute "P" c7db2).2 ≤ 1 ∧
    (completeRoute "P" c7db2).1 = some "A" :=
  ⟨(c7_queue_advance c7db2 (by decide) (by decide)).1 "A",
   (c7_queue_advance c7db2 (by decide) (by decide)).2.2.1 "P" (by decide),
   ((c7_queue_advance c7db2 (by decide) (by decide)).2.2.2 "P" (c7Song "A" .ready 1)
      (by decide)).2.2.2.1⟩

lemma removeJob_map_set (id : String) (j : JobOptions) (js : Jobs) :
    removeJob id (js.map (fun p => if p.1 == id then (id, j) else p)) = removeJob id js := by
  induction js with
  | nil => rfl
  | cons p rest ih =>
    simp only [List.map_cons, removeJob, List.filter_cons] at ih ⊢
    rw [ih]
    by_cases hp : (p.1 == id) = true <;> simp [hp]

lemma removeJob_setJob (id : String) (j : JobOptions) (js : Jobs) :
    removeJob id (setJob id j js) = removeJob id js := by
  unfold setJob
  by_cases h : js.any (fun p => p.1 == id) = true
  · simp only [h, if_true]
    exact removeJob_map_set id j js
  · simp only [h, Bool.false_eq_true, if_false]
    rw [removeJob, List.filter_append]
    simp [removeJob]

lemma removeJob_idem (id : String) (js : Jobs) :
    removeJob id (removeJob id js) = removeJob id js := by
  rw [removeJob, removeJob, List.filter_filter]
  simp

/-- C1 (amended): `processKaraokeSong` performs no duplicate check — its
behaviour is identical whether or not an active registry entry for
`songId` already exists; the entry is overwritten for the duration of the
run and a fresh run is always started. -/
theorem c1_no_duplicate_guard (env : Env) (songId : String) (options : Options) (s : St) :
    processKaraokeSong env songId options s =
      processKaraokeSong env songId options { s with jobs := removeJob songId s.jobs } := by
  simp only [processKaraokeSong]
  congr 1
  rw [removeJob_setJob, removeJob_setJob, removeJob_idem]

def c1Env : Env where
  fs := fun _ => false
  sizeOf := fun _ => 0
  now := 3
  torrentFind := none
  torrentProgress := []
  torrentOutcome := .error "e"
  uploadsFile := none
  youtubeOutcome := .ok none
  sepProgress := []
  sepOutcome := .error "sep"
  lyricsResult := none
  syncOutcome := .ok ()
  writeLrcOutcome := .ok ()
  replaceAudioOutcome := .ok ()
  optimizeOutcome := .ok "o"
  generateVideoOutcome := .ok ()
  lyricVideoOutcome := .ok ()

/-- A state with an active registry entry for song `A`, whose run is at
`processing`/`progress 0`. -/
def c1St : St where
  core := { songs := [c7Song "A" .processing 1], cache := [], trace := [] }
  jobs := [("A", mergeOptions {})]

/-- C1, counterexample: a second `processKaraokeSong` call while song `A`
has an active registry entry is *not* a no-op returning
`AlreadyProcessing` (no such result exists): it starts a second run that
rewrites the Song record and the registry. -/
theorem c1_duplicate_submit_counterexample :
    (processKaraokeSong c1Env "A" {} c1St).core.songs ≠ c1St.core.songs ∧
    (processKaraokeSong c1Env "A" {} c1St).jobs ≠ c1St.jobs ∧
    (processKaraokeSong c1Env "A" {} c1St).core.trace ≠ c1St.core.trace ∧
    (getSong (processKaraokeSong c1Env "A" {} c1St).core.songs "A").map
      (fun t => (t.status, t.processingProgress)) = some (.failed, 0) := by decide

/-- C4 (amended): a fatal stage failure terminates the run with
`status=failed`, `progress=0`, releases the registry slot and starts no
retry; the final state does not depend on the error, because the failure
reason is only logged — the `songs` schema has no error column. -/
theorem c4_failure_semantics (env : Env) (songId : String) (options : Options)
    (s : St) (e : String) (c : Core)
    (h : runBody env songId options s.core = .thrown e c) :
    processKaraokeSong env songId options s =
      { core := coreWriteStatus songId .failed (some 0) c,
        jobs := removeJob songId (setJob songId (mergeOptions options) s.jobs) } := by
  unfold processKaraokeSong
  rw [h]

/-- The state at which `c1Env`'s run throws (acquisition exhausted). -/
def c4ThrownCore : Core where
  songs := [{ c7Song "A" .processing 1 with processingProgress := 10 }]
  cache := []
  trace := [⟨"A", .processing, some 5⟩, ⟨"A", .processing, some 10⟩]

theorem c4_failure_semantics_witness :
    processKaraokeSong c1Env "A" {} c1St =
      { core := coreWriteStatus "A" .failed (some 0) c4ThrownCore,
        jobs := removeJob "A" (setJob "A" (mergeOptions {}) c1St.jobs) } :=
  c4_failure_semantics c1Env "A" {} c1St "Could not acquire audio for: a - A"
    c4ThrownCore (by decide)

def c4EnvA : Env :=
  { c1Env with uploadsFile := some "u.mp3",
               sepOutcome := .error "separation crashed: out of memory" }

def c4EnvB : Env :=
  { c1Env with uploadsFile := some "u.mp3",
               sepOutcome := .error "separation crashed: model checkpoint missing" }

/-- C4, counterexample to the error-recording conjunct: two runs failing
with *different* separation causes end in byte-identical states — no
failure reason is recorded anywhere on the Song record. -/
theorem c4_error_not_recorded_counterexample :
    c4EnvA.sepOutcome = .error "separation crashed: out of memory" ∧
    c4EnvB.sepOutcome = .error "separation crashed: model checkpoint missing" ∧
    ("separation crashed: out of memory" : String) ≠
      "separation crashed: model checkpoint missing" ∧
    processKaraokeSong c4EnvA "A" {} c1St = processKaraokeSong c4EnvB "A" {} c1St ∧
    (getSong (processKaraokeSong c4EnvA "A" {} c1St).core.songs "A").map
      (fun t => (t.status, t.processingProgress)) = some (.failed, 0) :=
  ⟨rfl, rfl, by decide, by decide, by decide⟩


def c6Song : Song where
  id := "s6"
  userId := "u"
  songTitle := "Hello"
  artist := "Adele"
  status := .queued
  processingProgress := 0
  requestedAt := 1
  originalAudioPath := none
  instrumentalPath := none
  lyricsPath := none
  videoPath := none

/-- Environment in which every pipeline collaborator fails to produce
audio, but the cache holds a fully valid entry for the song. -/
def c6Env : Env where
  fs := fsHit
  sizeOf := fun _ => 1
  now := 5
  torrentFind := none
  torrentProgress := []
  torrentOutcome := .error "x"
  uploadsFile := none
  youtubeOutcome := .ok none
  sepProgress := []
  sepOutcome := .error "unreached"
  lyricsResult := none
  syncOutcome := .ok ()
  writeLrcOutcome := .ok ()
  replaceAudioOutcome := .ok ()
  optimizeOutcome := .ok "y"
  generateVideoOutcome := .ok ()
  lyricVideoOutcome := .ok ()

def c6St : St where
  core := { songs := [c6Song], cache := [rowGood], trace := [] }
  jobs := []

/-- C6: the cache-hit fast path is dead under defaulted options.  The
defaulted job options set `useCache = true` and a valid cache entry for
the song's fingerprint exists (`checkCache` returns a hit), yet the run
submitted without an explicit `useCache` skips the hit branch — the guard
reads the raw `options.useCache` (undefined) instead of the defaulted
`job.options.useCache` — and here ends `failed` instead of serving the
cached artifacts; the same submission with an explicit `useCache: true`
reaches `ready` with the cached paths. -/
theorem c6_usecache_default_bug :
    (mergeOptions { quality := some "high" }).useCache = true ∧
    (checkCache c6Env.fs c6Env.now "Hello" "Adele" (jsStr (some "high"))
        c6St.core.cache).1.isSome = true ∧
    (getSong (processKaraokeSong c6Env "s6" { quality := some "high" } c6St).core.songs
        "s6").map (fun t => (t.status, t.processingProgress)) =
      some (.failed, 0) ∧
    (getSong (processKaraokeSong c6Env "s6"
        { quality := some "high", useCache := some true } c6St).core.songs "s6").map
        (fun t => (t.status, t.processingProgress, t.instrumentalPath, t.videoPath)) =
      some (.ready, 100, some "c/i.wav", some "c/v.mp4") := by
  refine ⟨rfl, by decide, by decide, by decide⟩

/-- The per-record effect of `updateSongStatus`. -/
def applyStatus (st : SongStatus) (p : Option ℤ) (s : Song) : Song :=
  match p with
  | some v => { s with status := st, processingProgress := v }
  | none => { s with status := st }

/-- The per-record effect of `updateSongPaths`. -/
def applyPathsUpd (u : PathsUpdate) (s : Song) : Song :=
  { s with originalAudioPath := applyPath s.originalAudioPath u.original,
           instrumentalPath := applyPath s.instrumentalPath u.instrumental,
           lyricsPath := applyPath s.lyricsPath u.lyrics,
           videoPath := applyPath s.videoPath u.video }

lemma updateSongStatus_eq_map (id : String) (st : SongStatus) (p : Option ℤ) (db : SongsDB) :
    updateSongStatus id st p db =
      db.map (fun s => if s.id == id then applyStatus st p s else s) := rfl

lemma updateSongPaths_eq_map (id : String) (u : PathsUpdate) (db : SongsDB) :
    updateSongPaths id u db =
      db.map (fun s => if s.id == id then applyPathsUpd u s else s) := rfl

lemma applyStatus_id (st : SongStatus) (p : Option ℤ) (s : Song) :
    (applyStatus st p s).id = s.id := by cases p <;> rfl

lemma getSong_mapIf (id : String) (f : Song → Song) (hf : ∀ s, (f s).id = s.id)
    (db : SongsDB) :
    getSong (db.map (fun s => if s.id == id then f s else s)) id = (getSong db id).map f := by
  induction db with
  | nil => rfl
  | cons s rest ih =>
    simp only [List.map_cons, getSong] at ih ⊢
    by_cases hs : (s.id == id) = true
    · rw [if_pos hs]
      rw [List.find?_cons_of_pos (p := fun (t : Song) => t.id == id) _ (by simp only [hf]; exact hs),
          List.find?_cons_of_pos (p := fun (t : Song) => t.id == id) _ hs]
      rfl
    · rw [if_neg hs]
      rw [List.find?_cons_of_neg (p := fun (t : Song) => t.id == id) _ hs,
          List.find?_cons_of_neg (p := fun (t : Song) => t.id == id) _ hs]
      exact ih

lemma getSong_updateSongStatus (id : String) (st : SongStatus) (p : Option ℤ) (db : SongsDB) :
    getSong (updateSongStatus id st p db) id = (getSong db id).map (applyStatus st p) := by
  rw [updateSongStatus_eq_map]
  exact getSong_mapIf id _ (applyStatus_id st p) db

lemma getSong_updateSongPaths (id : String) (u : PathsUpdate) (db : SongsDB) :
    getSong (updateSongPaths id u db) id = (getSong db id).map (applyPathsUpd u) := by
  rw [updateSongPaths_eq_map]
  exact getSong_mapIf id (applyPathsUpd u) (fun s => rfl) db

lemma getSong_coreWriteStatus (id : String) (st : SongStatus) (p : Option ℤ) (c : Core) :
    getSong (coreWriteStatus id st p c).songs id = (getSong c.songs id).map (applyStatus st p) :=
  getSong_updateSongStatus id st p c.songs

lemma getSong_coreWritePaths (id : String) (u : PathsUpdate) (c : Core) :
    getSong (coreWritePaths id u c).songs id = (getSong c.songs id).map (applyPathsUpd u) :=
  getSong_updateSongPaths id u c.songs

lemma coreWriteStatus_cache (id : String) (st : SongStatus) (p : Option ℤ) (c : Core) :
    (coreWriteStatus id st p c).cache = c.cache := rfl

lemma coreWritePaths_cache (id : String) (u : PathsUpdate) (c : Core) :
    (coreWritePaths id u c).cache = c.cache := rfl

lemma fireProgress_cons (id : String) (f : ℚ → ℤ) (p : ℚ) (ps : List ℚ) (c : Core) :
    fireProgress id f (p :: ps) c =
      fireProgress id f ps (coreWriteStatus id .processing (some (f p)) c) := rfl

lemma fireProgress_cache (id : String) (f : ℚ → ℤ) (ps : List ℚ) (c : Core) :
    (fireProgress id f ps c).cache = c.cache := by
  induction ps generalizing c with
  | nil => rfl
  | cons p ps ih => rw [fireProgress_cons, ih, coreWriteStatus_cache]

/-- `applyStatus` leaves the four artifact path columns alone. -/
lemma applyStatus_paths (st : SongStatus) (p : Option ℤ) (s : Song) :
    (applyStatus st p s).originalAudioPath = s.originalAudioPath ∧
    (applyStatus st p s).instrumentalPath = s.instrumentalPath ∧
    (applyStatus st p s).lyricsPath = s.lyricsPath ∧
    (applyStatus st p s).videoPath = s.videoPath := by
  cases p <;> exact ⟨rfl, rfl, rfl, rfl⟩

lemma getSong_fireProgress (id : String) (f : ℚ → ℤ) (ps : List ℚ) :
    ∀ c : Core, ∃ g : Song → Song,
      getSong (fireProgress id f ps c).songs id = (getSong c.songs id).map g ∧
      ∀ s, (g s).originalAudioPath = s.originalAudioPath ∧
           (g s).instrumentalPath = s.instrumentalPath ∧
           (g s).lyricsPath = s.lyricsPath ∧
           (g s).videoPath = s.videoPath := by
  induction ps with
  | nil =>
    intro c
    refine ⟨fun s => s, ?_, fun s => ⟨rfl, rfl, rfl, rfl⟩⟩
    show getSong c.songs id = _
    cases getSong c.songs id <;> rfl
  | cons p ps ih =>
    intro c
    obtain ⟨g, hg, hprop⟩ := ih (coreWriteStatus id .processing (some (f p)) c)
    refine ⟨fun s => g (applyStatus .processing (some (f p)) s), ?_, ?_⟩
    · rw [fireProgress_cons, hg, getSong_coreWriteStatus]
      cases getSong c.songs id <;> rfl
    · intro s
      obtain ⟨h1, h2, h3, h4⟩ := hprop (applyStatus .processing (some (f p)) s)
      obtain ⟨a1, a2, a3, a4⟩ := applyStatus_paths .processing (some (f p)) s
      exact ⟨h1.trans a1, h2.trans a2, h3.trans a3, h4.trans a4⟩

lemma acquireAudio_eq (env : Env) (songId : String) (c : Core) :
    acquireAudio env songId c = (acquireCore env songId c, acquiredAudio env) := by
  unfold acquireAudio acquireCore acquiredAudio
  cases env.torrentFind with
  | none => rfl
  | some t => cases env.torrentOutcome <;> rfl

lemma acquireCore_cache (env : Env) (songId : String) (c : Core) :
    (acquireCore env songId c).cache = c.cache := by
  unfold acquireCore
  cases env.torrentFind with
  | none => rfl
  | some t => exact fireProgress_cache _ _ _ _

lemma getSong_acquireCore (env : Env) (songId : String) (c : Core) :
    ∃ g : Song → Song,
      getSong (acquireCore env songId c).songs songId = (getSong c.songs songId).map g ∧
      ∀ s, (g s).originalAudioPath = s.originalAudioPath ∧
           (g s).instrumentalPath = s.instrumentalPath ∧
           (g s).lyricsPath = s.lyricsPath ∧
           (g s).videoPath = s.videoPath := by
  cases htf : env.torrentFind with
  | none =>
    simp only [acquireCore, htf]
    refine ⟨fun s => s, ?_, fun s => ⟨rfl, rfl, rfl, rfl⟩⟩
    cases getSong c.songs songId <;> rfl
  | some t =>
    simp only [acquireCore, htf]
    exact getSong_fireProgress songId _ _ c

lemma checkCache_of_no_row (fs : Fs) (now : Nat) (t a q : String) (db : CacheDB)
    (h : findRow db (generateCacheKey t a q) = none) :
    checkCache fs now t a q db = (none, db) := by
  simp [checkCache, h]

lemma findRow_addToCache_self (fs : Fs) (szf : String → Nat) (now : Nat)
    (t a q : String) (files : CacheFiles) (ytid : Option String) (db : CacheDB) :
    ∃ row, findRow (addToCache fs szf now t a q files ytid db)
        (generateCacheKey t a q) = some row ∧
      row.lyricsPath = files.lyrics ∧ row.instrumentalPath = files.instrumental ∧
      row.videoPath = files.video := by
  have h1 := findRow_removeFromCache_self (generateCacheKey t a q) db
  rw [findRow] at h1
  refine ⟨{ cacheKey := generateCacheKey t a q, title := t, artist := a,
            originalAudioPath := files.original, instrumentalPath := files.instrumental,
            lyricsPath := files.lyrics, videoPath := files.video,
            youtubeVideoId := ytid, processingQuality := some q,
            createdAt := now, lastAccessed := now,
            fileSize := [files.original, files.instrumental, files.lyrics,
              files.video].foldl (fun acc p => match p with
                | some q2 => if fs q2 then acc + szf q2 else acc
                | none => acc) 0 }, ?_, rfl, rfl, rfl⟩
  unfold addToCache
  rw [findRow, List.find?_append, h1]
  simp


lemma syncLyricsThrow_none (env : Env) (h : env.lyricsResult = none) :
    syncLyricsThrow env = none := by
  unfold syncLyricsThrow
  rw [h]

lemma syncLyricsThrow_some (env : Env) (ly : String) (h : env.lyricsResult = some ly) :
    syncLyricsThrow env =
      (match env.syncOutcome with
       | .error e => some e
       | .ok _ =>
         match env.writeLrcOutcome with
         | .error e => some e
         | .ok _ => none) := by
  unfold syncLyricsThrow
  rw [h]

lemma stepStatus (id : String) (st : SongStatus) (p : Option ℤ) (c : Core) (x : Song)
    (hx : getSong c.songs id = some x) :
    ∃ y, getSong (coreWriteStatus id st p c).songs id = some y ∧
      y.lyricsPath = x.lyricsPath ∧ y.status = st ∧
      (∀ v, p = some v → y.processingProgress = v) :=
  ⟨applyStatus st p x, by rw [getSong_coreWriteStatus, hx]; rfl,
    (applyStatus_paths st p x).2.2.1,
    by cases p <;> rfl,
    fun v hv => by subst hv; rfl⟩

lemma stepPaths (id : String) (u : PathsUpdate) (c : Core) (x : Song)
    (hu : u.lyrics = none) (hx : getSong c.songs id = some x) :
    ∃ y, getSong (coreWritePaths id u c).songs id = some y ∧
      y.lyricsPath = x.lyricsPath :=
  ⟨applyPathsUpd u x, by rw [getSong_coreWritePaths, hx]; rfl,
    by simp [applyPathsUpd, hu, applyPath]⟩

lemma stepFire (id : String) (f : ℚ → ℤ) (ps : List ℚ) (c : Core) (x : Song)
    (hx : getSong c.songs id = some x) :
    ∃ y, getSong (fireProgress id f ps c).songs id = some y ∧
      y.lyricsPath = x.lyricsPath := by
  obtain ⟨g, hg, hgp⟩ := getSong_fireProgress id f ps c
  exact ⟨g x, by rw [hg, hx]; rfl, (hgp x).2.2.1⟩

lemma stepAcquire (env : Env) (songId : String) (c : Core) (x : Song)
    (hx : getSong c.songs songId = some x) :
    ∃ y, getSong (acquireCore env songId c).songs songId = some y ∧
      y.lyricsPath = x.lyricsPath := by
  obtain ⟨g, hg, hgp⟩ := getSong_acquireCore env songId c
  exact ⟨g x, by rw [hg, hx]; rfl, (hgp x).2.2.1⟩

/-- C5 (amended): lyric *absence* is soft.  When `fetchLyrics` yields no
lyrics (its fetch failures are caught internally and surface as null)
while acquisition, separation and composition succeed, the run is *not*
failed: it reaches `ready`/100, the Song's lyrics artifact is left unset,
and the cache entry produced by the run records no lyrics artifact (the
composition was invoked without lyrics).  A failure of the synchronize or
write step *after* lyrics are found is, by contrast, unguarded and fatal
(see the C5 counterexample). -/
theorem c5_lyrics_soft (env : Env) (songId : String) (opts : Options) (s : St)
    (song : Song) (instr audio video : String)
    (hs : getSong s.core.songs songId = some song)
    (hmiss : findRow s.core.cache
      (generateCacheKey song.songTitle song.artist (jsStr opts.quality)) = none)
    (hlyr : env.lyricsResult = none)
    (hacq : acquiredAudio env = some audio)
    (hsep : env.sepOutcome = .ok instr)
    (hcomp : composeVideoStep env instr ((ytVideoOf env).map (fun v => v.filePath))
      none none = .ok video) :
    (getSong (processKaraokeSong env songId opts s).core.songs songId).map
        (fun t => (t.status, t.processingProgress, t.lyricsPath)) =
      some (.ready, 100, song.lyricsPath) ∧
    (∃ row, findRow (processKaraokeSong env songId opts s).core.cache
        (generateCacheKey song.songTitle song.artist (jsStr opts.quality)) = some row ∧
      row.lyricsPath = none ∧ row.instrumentalPath = some instr ∧
      row.videoPath = some video) := by
  have hcc : checkCache env.fs env.now song.songTitle song.artist (jsStr opts.quality)
      s.core.cache = (none, s.core.cache) :=
    checkCache_of_no_row _ _ _ _ _ _ hmiss
  simp only [processKaraokeSong, runBody, hs, coreWriteStatus_cache, hcc, acquireAudio_eq,
    hacq, hlyr, hsep, hcomp, syncLyricsThrow_none env hlyr, coreWritePaths_cache,
    fireProgress_cache, acquireCore_cache]
  constructor
  · obtain ⟨y1, e1, l1, -, -⟩ := stepStatus songId .processing (some 5) s.core song hs
    have e1x : getSong
        ({ songs := (coreWriteStatus songId .processing (some 5) s.core).songs,
           cache := s.core.cache,
           trace := (coreWriteStatus songId .processing (some 5) s.core).trace } : Core).songs
        songId = some y1 := e1
    obtain ⟨y2, e2, l2, -, -⟩ := stepStatus songId .processing (some 10) _ y1 e1x
    obtain ⟨y3, e3, l3⟩ := stepAcquire env songId _ y2 e2
    obtain ⟨y4, e4, l4⟩ := stepPaths songId
      { original := some audio, instrumental := none, lyrics := none, video := none }
      _ y3 rfl e3
    obtain ⟨y5, e5, l5, -, -⟩ := stepStatus songId .processing (some 30) _ y4 e4
    obtain ⟨y6, e6, l6, -, -⟩ := stepStatus songId .processing (some 45) _ y5 e5
    obtain ⟨y7, e7, l7⟩ := stepFire songId (fun p => 45 + jsRound (p * 0.25))
      env.sepProgress _ y6 e6
    obtain ⟨y8, e8, l8⟩ := stepPaths songId
      { original := none, instrumental := some instr, lyrics := none, video := none }
      _ y7 rfl e7
    obtain ⟨y9, e9, l9, -, -⟩ := stepStatus songId .processing (some 75) _ y8 e8
    obtain ⟨y10, e10, l10, -, -⟩ := stepStatus songId .processing (some 85) _ y9 e9
    obtain ⟨y11, e11, l11⟩ := stepPaths songId
      { original := none, instrumental := none, lyrics := none, video := some video }
      _ y10 rfl e10
    have e11x : getSong
        ({ songs := (coreWritePaths songId
              { original := none, instrumental := none, lyrics := none, video := some video }
              (coreWriteStatus songId .processing (some 85)
                (coreWriteStatus songId .processing (some 75)
                  (coreWritePaths songId
                    { original := none, instrumental := some instr, lyrics := none, video := none }
                    (fireProgress songId (fun p => 45 + jsRound (p * 0.25)) env.sepProgress
                      (coreWriteStatus songId .processing (some 45)
                        (coreWriteStatus songId .processing (some 30)
                          (coreWritePaths songId
                            { original := some audio, instrumental := none, lyrics := none,
                              video := none }
                            (acquireCore env songId
                              (coreWriteStatus songId .processing (some 10)
                                { songs := (coreWriteStatus songId .processing (some 5)
                                      s.core).songs,
                                  cache := s.core.cache,
                                  trace := (coreWriteStatus songId .processing (some 5)
                                      s.core).trace })))))))))).songs,
           cache := addToCache env.fs env.sizeOf env.now song.songTitle song.artist
              (jsStr opts.quality)
              { original := some audio, instrumental := some instr, lyrics := none,
                video := some video }
              (Option.map (fun v => v.videoId) (ytVideoOf env)) s.core.cache,
           trace := (coreWritePaths songId
                { original := none, instrumental := none, lyrics := none, video := some video }
                (coreWriteStatus songId .processing (some 85)
                  (coreWriteStatus songId .processing (some 75)
                    (coreWritePaths songId
                      { original := none, instrumental := some instr, lyrics := none,
                        video := none }
                      (fireProgress songId (fun p => 45 + jsRound (p * 0.25)) env.sepProgress
                        (coreWriteStatus songId .processing (some 45)
                          (coreWriteStatus songId .processing (some 30)
                            (coreWritePaths songId
                              { original := some audio, instrumental := none, lyrics := none,
                                video := none }
                              (acquireCore env songId
                                (coreWriteStatus songId .processing (some 10)
                                  { songs := (coreWriteStatus songId .processing (some 5)
                                        s.core).songs,
                                    cache := s.core.cache,
                                    trace := (coreWriteStatus songId .processing (some 5)
                                        s.core).trace })))))))))).trace } : Core).songs
        songId = some y11 := e11
    obtain ⟨y12, e12, l12, st12, pr12⟩ := stepStatus songId .ready (some 100) _ y11 e11x
    rw [e12]
    simp only [Option.map_some', Option.some.injEq, Prod.mk.injEq]
    refine ⟨st12, pr12 100 rfl, ?_⟩
    rw [l12, l11, l10, l9, l8, l7, l6, l5, l4, l3, l2, l1]
  · exact findRow_addToCache_self env.fs env.sizeOf env.now song.songTitle song.artist
      (jsStr opts.quality)
      { original := some audio, instrumental := some instr, lyrics := none,
        video := some video }
      (Option.map (fun v => v.videoId) (ytVideoOf env)) s.core.cache



def c5Env : Env where
  fs := fun _ => true
  sizeOf := fun _ => 2
  now := 11
  torrentFind := none
  torrentProgress := []
  torrentOutcome := .error "t"
  uploadsFile := some "uploads/c5.mp3"
  youtubeOutcome := .ok none
  sepProgress := [1]
  sepOutcome := .ok "w/inst.wav"
  lyricsResult := none
  syncOutcome := .ok ()
  writeLrcOutcome := .ok ()
  replaceAudioOutcome := .ok ()
  optimizeOutcome := .ok "w/opt.mp4"
  generateVideoOutcome := .ok ()
  lyricVideoOutcome := .ok ()

def c5St : St where
  core := { songs := [c6Song], cache := [], trace := [] }
  jobs := []

theorem c5_lyrics_soft_witness :
    (getSong (processKaraokeSong c5Env "s6" {} c5St).core.songs "s6").map
        (fun t => (t.status, t.processingProgress, t.lyricsPath)) =
      some (.ready, 100, none) ∧
    (∃ row, findRow (processKaraokeSong c5Env "s6" {} c5St).core.cache
        (generateCacheKey "Hello" "Adele" (jsStr (none : Option String))) = some row ∧
      row.lyricsPath = none ∧ row.instrumentalPath = some "w/inst.wav" ∧
      row.videoPath = some "w/generated_karaoke.mp4") :=
  c5_lyrics_soft c5Env "s6" {} c5St c6Song "w/inst.wav" "uploads/c5.mp3"
    "w/generated_karaoke.mp4" (by decide) rfl rfl rfl rfl
    (by decide)

/-- `c5Env` with lyrics found but with the synchronize stage rejecting:
`smartSynchronize`'s catch awaits `getAudioDuration`, so an ffprobe
rejection propagates out of the catch unguarded. -/
def c5FailEnv : Env :=
  { c5Env with lyricsResult := some "Hello from the other side",
               syncOutcome := .error "ffprobe exited with code 1" }

/-- C5, counterexample: a `syncLyrics`-stage *failure* (as opposed to
lyric absence) is not soft.  Lyrics are found and every other
collaborator succeeds — audio is acquired, separation resolves, and
either compose strategy would resolve — yet the `smartSynchronize`
rejection propagates to the global catch and the run ends `failed`/0
instead of degrading to an instrumental-only composition and reaching
`ready`. -/
theorem c5_sync_failure_counterexample :
    c5FailEnv.lyricsResult = some "Hello from the other side" ∧
    c5FailEnv.syncOutcome = .error "ffprobe exited with code 1" ∧
    acquiredAudio c5FailEnv = some "uploads/c5.mp3" ∧
    c5FailEnv.sepOutcome = .ok "w/inst.wav" ∧
    composeVideoStep c5FailEnv "w/inst.wav"
      ((ytVideoOf c5FailEnv).map (fun v => v.filePath)) none none =
        .ok "w/generated_karaoke.mp4" ∧
    composeVideoStep c5FailEnv "w/inst.wav"
      ((ytVideoOf c5FailEnv).map (fun v => v.filePath)) (some "w/lyrics.lrc")
      (some "Hello from the other side") = .ok "w/generated_karaoke.mp4" ∧
    (getSong (processKaraokeSong c5FailEnv "s6" {} c5St).core.songs "s6").map
      (fun t => (t.status, t.processingProgress)) = some (.failed, 0) :=
  ⟨rfl, rfl, rfl, rfl, by decide, by decide, by decide⟩


/-- Statuses that end a run's write sequence. -/
def isTerminalStatus (st : SongStatus) : Bool := st == .ready || st == .failed

/-- A trace event that does not end the run. -/
def nonTerminalEv (ev : WriteEv) : Bool := !(isTerminalStatus ev.status)

/-- The progress values carried by a write trace. -/
def progressVals (t : List WriteEv) : List ℤ := t.filterMap (fun ev => ev.progress)

lemma coreWriteStatus_trace (id : String) (st : SongStatus) (p : Option ℤ) (c : Core) :
    (coreWriteStatus id st p c).trace = c.trace ++ [⟨id, st, p⟩] := rfl

lemma coreWritePaths_trace (id : String) (u : PathsUpdate) (c : Core) :
    (coreWritePaths id u c).trace = c.trace := rfl

lemma fireProgress_trace (id : String) (f : ℚ → ℤ) (ps : List ℚ) (c : Core) :
    (fireProgress id f ps c).trace =
      c.trace ++ ps.map (fun p => ⟨id, .processing, some (f p)⟩) := by
  induction ps generalizing c with
  | nil => show c.trace = c.trace ++ List.map _ []; simp
  | cons p ps ih2 =>
    rw [fireProgress_cons, ih2, coreWriteStatus_trace]
    simp

lemma jsRound_zero (x : ℚ) (h0 : 0 ≤ x) (h1 : x < 1/2) : jsRound x = 0 := by
  rw [jsRound, Int.floor_eq_zero_iff, Set.mem_Ico]
  constructor <;> linarith

lemma torrent_write_val (p : ℚ) (h0 : 0 ≤ p) (h1 : p ≤ 1) :
    (10 : ℤ) + jsRound (p * 0.15) = 10 := by
  rw [jsRound_zero (p * 0.15) (by positivity) (by nlinarith)]
  ring

lemma sep_write_val (p : ℚ) (h0 : 0 ≤ p) (h1 : p ≤ 1) :
    (45 : ℤ) + jsRound (p * 0.25) = 45 := by
  rw [jsRound_zero (p * 0.25) (by positivity) (by nlinarith)]
  ring

lemma filterMap_progress_const (l : List WriteEv) (v : ℤ)
    (h : ∀ ev ∈ l, ev.progress = some v) :
    l.filterMap (fun ev => ev.progress) = l.map (fun _ => v) := by
  induction l with
  | nil => rfl
  | cons e t ih =>
    rw [List.filterMap_cons, List.map_cons, h e (List.mem_cons_self e t),
      ih (fun ev hev => h ev (List.mem_cons_of_mem e hev))]

lemma takeWhile_all_append (p : WriteEv → Bool) (l1 l2 : List WriteEv)
    (h : ∀ e ∈ l1, p e = true) :
    (l1 ++ l2).takeWhile p = l1 ++ l2.takeWhile p := by
  induction l1 with
  | nil => simp
  | cons e t ih =>
    rw [List.cons_append, List.takeWhile_cons, h e (List.mem_cons_self e t)]
    rw [ih (fun x hx => h x (List.mem_cons_of_mem e hx))]
    simp


lemma head?_mem_allconst (v : ℤ) (mid rest : List ℤ) (hmid : ∀ x ∈ mid, x = v) :
    ∀ y, (mid ++ rest).head? = some y → y = v ∨ rest.head? = some y := by
  cases mid with
  | nil => intro y hy; exact Or.inr (by simpa using hy)
  | cons a t =>
    intro y hy
    simp only [List.cons_append, List.head?_cons, Option.some.injEq] at hy
    exact Or.inl (hy ▸ hmid a (List.mem_cons_self a t))

lemma chain'_allconst_append (v : ℤ) (mid : List ℤ) (hmid : ∀ x ∈ mid, x = v)
    (rest : List ℤ) (hrest : List.Chain' (· ≤ ·) rest)
    (hhead : ∀ y, rest.head? = some y → v ≤ y) :
    List.Chain' (· ≤ ·) (mid ++ rest) := by
  induction mid with
  | nil => exact hrest
  | cons a t ih =>
    have ha : a = v := hmid a (List.mem_cons_self a t)
    rw [List.cons_append, List.chain'_cons']
    refine ⟨?_, ih (fun x hx => hmid x (List.mem_cons_of_mem a hx))⟩
    intro y hy
    rcases head?_mem_allconst v t rest (fun x hx => hmid x (List.mem_cons_of_mem a hx)) y hy with
      h | h
    · rw [ha, h]
    · rw [ha]; exact hhead y h

lemma chainShapeFull (m10 m45 : List ℤ) (h10 : ∀ x ∈ m10, x = 10)
    (h45 : ∀ x ∈ m45, x = 45) :
    List.Chain' (· ≤ ·) (5 :: 10 :: (m10 ++ 30 :: 45 :: (m45 ++ [75, 85]))) := by
  have c1 : List.Chain' (· ≤ ·) (m45 ++ [75, 85]) :=
    chain'_allconst_append 45 m45 h45 [75, 85]
      (List.chain'_cons.mpr ⟨by omega, List.chain'_singleton 85⟩)
      (fun y hy => by simp at hy; omega)
  have c2 : List.Chain' (· ≤ ·) (45 :: (m45 ++ [75, 85])) := by
    rw [List.chain'_cons']
    refine ⟨fun y hy => ?_, c1⟩
    rcases head?_mem_allconst 45 m45 [75, 85] h45 y hy with h | h
    · omega
    · simp at h; omega
  have c3 : List.Chain' (· ≤ ·) (30 :: 45 :: (m45 ++ [75, 85])) := by
    rw [List.chain'_cons']
    exact ⟨fun y hy => by simp at hy; omega, c2⟩
  have c4 : List.Chain' (· ≤ ·) (m10 ++ 30 :: 45 :: (m45 ++ [75, 85])) :=
    chain'_allconst_append 10 m10 h10 _ c3 (fun y hy => by simp at hy; omega)
  have c5 : List.Chain' (· ≤ ·) (10 :: (m10 ++ 30 :: 45 :: (m45 ++ [75, 85]))) := by
    rw [List.chain'_cons']
    refine ⟨fun y hy => ?_, c4⟩
    rcases head?_mem_allconst 10 m10 _ h10 y hy with h | h
    · omega
    · simp at h; omega
  rw [List.chain'_cons']
  refine ⟨fun y hy => ?_, c5⟩
  simp at hy
  omega

lemma chainShapeSep (m10 m45 : List ℤ) (h10 : ∀ x ∈ m10, x = 10)
    (h45 : ∀ x ∈ m45, x = 45) :
    List.Chain' (· ≤ ·) (5 :: 10 :: (m10 ++ 30 :: 45 :: m45)) := by
  have c1 : List.Chain' (· ≤ ·) m45 :=
    (List.append_nil m45) ▸ chain'_allconst_append 45 m45 h45 [] List.chain'_nil
      (fun y hy => by simp at hy)
  have c2 : List.Chain' (· ≤ ·) (45 :: m45) := by
    rw [List.chain'_cons']
    refine ⟨fun y hy => ?_, c1⟩
    rcases head?_mem_allconst 45 m45 [] h45 y (by simpa using hy) with h | h
    · omega
    · simp at h
  have c3 : List.Chain' (· ≤ ·) (30 :: 45 :: m45) := by
    rw [List.chain'_cons']
    exact ⟨fun y hy => by simp at hy; omega, c2⟩
  have c4 : List.Chain' (· ≤ ·) (m10 ++ 30 :: 45 :: m45) :=
    chain'_allconst_append 10 m10 h10 _ c3 (fun y hy => by simp at hy; omega)
  have c5 : List.Chain' (· ≤ ·) (10 :: (m10 ++ 30 :: 45 :: m45)) := by
    rw [List.chain'_cons']
    refine ⟨fun y hy => ?_, c4⟩
    rcases head?_mem_allconst 10 m10 _ h10 y hy with h | h
    · omega
    · simp at h; omega
  rw [List.chain'_cons']
  refine ⟨fun y hy => ?_, c5⟩
  simp at hy
  omega

lemma chainShapeAcq (m10 : List ℤ) (h10 : ∀ x ∈ m10, x = 10) :
    List.Chain' (· ≤ ·) (5 :: 10 :: m10) := by
  have c1 : List.Chain' (· ≤ ·) m10 :=
    (List.append_nil m10) ▸ chain'_allconst_append 10 m10 h10 [] List.chain'_nil
      (fun y hy => by simp at hy)
  have c2 : List.Chain' (· ≤ ·) (10 :: m10) := by
    rw [List.chain'_cons']
    refine ⟨fun y hy => ?_, c1⟩
    rcases head?_mem_allconst 10 m10 [] h10 y (by simpa using hy) with h | h
    · omega
    · simp at h
  rw [List.chain'_cons']
  refine ⟨fun y hy => ?_, c2⟩
  simp at hy
  omega


/-- The trace events STEP 2's torrent phase contributes. -/
def acqEvents (env : Env) (songId : String) : List WriteEv :=
  match env.torrentFind with
  | none => []
  | some _ =>
    env.torrentProgress.map (fun p => ⟨songId, .processing, some (10 + jsRound (p * 0.15))⟩)

lemma acquireCore_trace (env : Env) (songId : String) (c : Core) :
    (acquireCore env songId c).trace = c.trace ++ acqEvents env songId := by
  cases htf : env.torrentFind with
  | none => simp [acquireCore, acqEvents, htf]
  | some t => simp [acquireCore, acqEvents, htf, fireProgress_trace]

lemma acqEvents_mem (env : Env) (songId : String)
    (htp : ∀ p ∈ env.torrentProgress, 0 ≤ p ∧ p ≤ 1) :
    ∀ ev ∈ acqEvents env songId, ev.progress = some 10 ∧ nonTerminalEv ev = true := by
  unfold acqEvents
  cases env.torrentFind with
  | none => simp
  | some t =>
    intro ev hev
    simp only [List.mem_map] at hev
    obtain ⟨p, hp, rfl⟩ := hev
    exact ⟨by simp [torrent_write_val p (htp p hp).1 (htp p hp).2], rfl⟩

lemma sepEvents_mem (songId : String) (sp : List ℚ)
    (hsp : ∀ p ∈ sp, 0 ≤ p ∧ p ≤ 1) :
    ∀ ev ∈ sp.map (fun p => (⟨songId, .processing, some (45 + jsRound (p * 0.25))⟩ : WriteEv)),
      ev.progress = some 45 ∧ nonTerminalEv ev = true := by
  intro ev hev
  simp only [List.mem_map] at hev
  obtain ⟨p, hp, rfl⟩ := hev
  exact ⟨by simp [sep_write_val p (hsp p hp).1 (hsp p hp).2], rfl⟩

lemma chainLeafFull (songId : String) (m1 m2 : List WriteEv) (tEv : WriteEv)
    (h1 : ∀ ev ∈ m1, ev.progress = some 10 ∧ nonTerminalEv ev = true)
    (h2 : ∀ ev ∈ m2, ev.progress = some 45 ∧ nonTerminalEv ev = true)
    (hT : nonTerminalEv tEv = false) :
    (progressVals (((⟨songId, .processing, some 5⟩ : WriteEv) :: ⟨songId, .processing, some 10⟩ ::
        (m1 ++ ⟨songId, .processing, some 30⟩ :: ⟨songId, .processing, some 45⟩ ::
          (m2 ++ ⟨songId, .processing, some 75⟩ :: ⟨songId, .processing, some 85⟩ ::
            [tEv]))).takeWhile nonTerminalEv)).Chain' (· ≤ ·) := by
  have hsplit : (⟨songId, .processing, some 5⟩ : WriteEv) :: ⟨songId, .processing, some 10⟩ ::
      (m1 ++ ⟨songId, .processing, some 30⟩ :: ⟨songId, .processing, some 45⟩ ::
        (m2 ++ ⟨songId, .processing, some 75⟩ :: ⟨songId, .processing, some 85⟩ :: [tEv])) =
      ((⟨songId, .processing, some 5⟩ : WriteEv) :: ⟨songId, .processing, some 10⟩ ::
        (m1 ++ ⟨songId, .processing, some 30⟩ :: ⟨songId, .processing, some 45⟩ ::
          (m2 ++ [⟨songId, .processing, some 75⟩, ⟨songId, .processing, some 85⟩]))) ++ [tEv] := by
    simp
  rw [hsplit, takeWhile_all_append _ _ _ ?all]
  case all =>
    intro e he
    simp only [List.mem_cons, List.mem_append] at he
    rcases he with rfl | rfl | he | rfl | rfl | he | rfl | rfl | hnil
    · rfl
    · rfl
    · exact (h1 e he).2
    · rfl
    · rfl
    · exact (h2 e he).2
    · rfl
    · rfl
    · cases hnil
  have ht0 : List.takeWhile nonTerminalEv [tEv] = [] := by
    simp [List.takeWhile_cons, hT]
  rw [ht0, List.append_nil]
  unfold progressVals
  simp only [List.filterMap_cons, List.filterMap_append]
  rw [filterMap_progress_const m1 10 (fun ev hev => (h1 ev hev).1),
      filterMap_progress_const m2 45 (fun ev hev => (h2 ev hev).1)]
  exact chainShapeFull (m1.map fun _ => 10) (m2.map fun _ => 45) (by simp) (by simp)


lemma chainLeafSep (songId : String) (m1 m2 : List WriteEv) (tEv : WriteEv)
    (h1 : ∀ ev ∈ m1, ev.progress = some 10 ∧ nonTerminalEv ev = true)
    (h2 : ∀ ev ∈ m2, ev.progress = some 45 ∧ nonTerminalEv ev = true)
    (hT : nonTerminalEv tEv = false) :
    (progressVals (((⟨songId, .processing, some 5⟩ : WriteEv) ::
        ⟨songId, .processing, some 10⟩ ::
        (m1 ++ ⟨songId, .processing, some 30⟩ :: ⟨songId, .processing, some 45⟩ ::
          (m2 ++ [tEv]))).takeWhile nonTerminalEv)).Chain' (· ≤ ·) := by
  have hsplit : (⟨songId, .processing, some 5⟩ : WriteEv) ::
      ⟨songId, .processing, some 10⟩ ::
      (m1 ++ ⟨songId, .processing, some 30⟩ :: ⟨songId, .processing, some 45⟩ ::
        (m2 ++ [tEv])) =
      ((⟨songId, .processing, some 5⟩ : WriteEv) :: ⟨songId, .processing, some 10⟩ ::
        (m1 ++ ⟨songId, .processing, some 30⟩ :: ⟨songId, .processing, some 45⟩ :: m2)) ++
        [tEv] := by
    simp
  rw [hsplit, takeWhile_all_append _ _ _ ?all]
  case all =>
    intro e he
    simp only [List.mem_cons, List.mem_append] at he
    rcases he with rfl | rfl | he | rfl | rfl | he
    · rfl
    · rfl
    · exact (h1 e he).2
    · rfl
    · rfl
    · exact (h2 e he).2
  have ht0 : List.takeWhile nonTerminalEv [tEv] = [] := by
    simp [List.takeWhile_cons, hT]
  rw [ht0, List.append_nil]
  unfold progressVals
  simp only [List.filterMap_cons, List.filterMap_append]
  rw [filterMap_progress_const m1 10 (fun ev hev => (h1 ev hev).1),
      filterMap_progress_const m2 45 (fun ev hev => (h2 ev hev).1)]
  exact chainShapeSep (m1.map fun _ => 10) (m2.map fun _ => 45) (by simp) (by simp)

lemma chainLeafAcq (songId : String) (m1 : List WriteEv) (tEv : WriteEv)
    (h1 : ∀ ev ∈ m1, ev.progress = some 10 ∧ nonTerminalEv ev = true)
    (hT : nonTerminalEv tEv = false) :
    (progressVals (((⟨songId, .processing, some 5⟩ : WriteEv) ::
        ⟨songId, .processing, some 10⟩ :: (m1 ++ [tEv])).takeWhile
        nonTerminalEv)).Chain' (· ≤ ·) := by
  have hsplit : (⟨songId, .processing, some 5⟩ : WriteEv) ::
      ⟨songId, .processing, some 10⟩ :: (m1 ++ [tEv]) =
      ((⟨songId, .processing, some 5⟩ : WriteEv) ::
        ⟨songId, .processing, some 10⟩ :: m1) ++ [tEv] := by
    simp
  rw [hsplit, takeWhile_all_append _ _ _ ?all]
  case all =>
    intro e he
    simp only [List.mem_cons] at he
    rcases he with rfl | rfl | he
    · rfl
    · rfl
    · exact (h1 e he).2
  have ht0 : List.takeWhile nonTerminalEv [tEv] = [] := by
    simp [List.takeWhile_cons, hT]
  rw [ht0, List.append_nil]
  unfold progressVals
  simp only [List.filterMap_cons]
  rw [filterMap_progress_const m1 10 (fun ev hev => (h1 ev hev).1)]
  exact chainShapeAcq (m1.map fun _ => 10) (by simp)

lemma chainShapeSync (m10 m45 : List ℤ) (h10 : ∀ x ∈ m10, x = 10)
    (h45 : ∀ x ∈ m45, x = 45) :
    List.Chain' (· ≤ ·) (5 :: 10 :: (m10 ++ 30 :: 45 :: (m45 ++ [75]))) := by
  have c1 : List.Chain' (· ≤ ·) (m45 ++ [75]) :=
    chain'_allconst_append 45 m45 h45 [75] (List.chain'_singleton 75)
      (fun y hy => by simp at hy; omega)
  have c2 : List.Chain' (· ≤ ·) (45 :: (m45 ++ [75])) := by
    rw [List.chain'_cons']
    refine ⟨fun y hy => ?_, c1⟩
    rcases head?_mem_allconst 45 m45 [75] h45 y hy with h | h
    · omega
    · simp at h; omega
  have c3 : List.Chain' (· ≤ ·) (30 :: 45 :: (m45 ++ [75])) := by
    rw [List.chain'_cons']
    exact ⟨fun y hy => by simp at hy; omega, c2⟩
  have c4 : List.Chain' (· ≤ ·) (m10 ++ 30 :: 45 :: (m45 ++ [75])) :=
    chain'_allconst_append 10 m10 h10 _ c3 (fun y hy => by simp at hy; omega)
  have c5 : List.Chain' (· ≤ ·) (10 :: (m10 ++ 30 :: 45 :: (m45 ++ [75]))) := by
    rw [List.chain'_cons']
    refine ⟨fun y hy => ?_, c4⟩
    rcases head?_mem_allconst 10 m10 _ h10 y hy with h | h
    · omega
    · simp at h; omega
  rw [List.chain'_cons']
  refine ⟨fun y hy => ?_, c5⟩
  simp at hy
  omega

lemma chainLeafSync (songId : String) (m1 m2 : List WriteEv) (tEv : WriteEv)
    (h1 : ∀ ev ∈ m1, ev.progress = some 10 ∧ nonTerminalEv ev = true)
    (h2 : ∀ ev ∈ m2, ev.progress = some 45 ∧ nonTerminalEv ev = true)
    (hT : nonTerminalEv tEv = false) :
    (progressVals (((⟨songId, .processing, some 5⟩ : WriteEv) :: ⟨songId, .processing, some 10⟩ ::
        (m1 ++ ⟨songId, .processing, some 30⟩ :: ⟨songId, .processing, some 45⟩ ::
          (m2 ++ ⟨songId, .processing, some 75⟩ ::
            [tEv]))).takeWhile nonTerminalEv)).Chain' (· ≤ ·) := by
  have hsplit : (⟨songId, .processing, some 5⟩ : WriteEv) :: ⟨songId, .processing, some 10⟩ ::
      (m1 ++ ⟨songId, .processing, some 30⟩ :: ⟨songId, .processing, some 45⟩ ::
        (m2 ++ ⟨songId, .processing, some 75⟩ :: [tEv])) =
      ((⟨songId, .processing, some 5⟩ : WriteEv) :: ⟨songId, .processing, some 10⟩ ::
        (m1 ++ ⟨songId, .processing, some 30⟩ :: ⟨songId, .processing, some 45⟩ ::
          (m2 ++ [⟨songId, .processing, some 75⟩]))) ++ [tEv] := by
    simp
  rw [hsplit, takeWhile_all_append _ _ _ ?all]
  case all =>
    intro e he
    simp only [List.mem_cons, List.mem_append] at he
    rcases he with rfl | rfl | he | rfl | rfl | he | rfl | hnil
    · rfl
    · rfl
    · exact (h1 e he).2
    · rfl
    · rfl
    · exact (h2 e he).2
    · rfl
    · cases hnil
  have ht0 : List.takeWhile nonTerminalEv [tEv] = [] := by
    simp [List.takeWhile_cons, hT]
  rw [ht0, List.append_nil]
  unfold progressVals
  simp only [List.filterMap_cons, List.filterMap_append]
  rw [filterMap_progress_const m1 10 (fun ev hev => (h1 ev hev).1),
      filterMap_progress_const m2 45 (fun ev hev => (h2 ev hev).1)]
  exact chainShapeSync (m1.map fun _ => 10) (m2.map fun _ => 45) (by simp) (by simp)


/-- C8: within one run (trace starting empty), the progress values
written before the terminal status write are non-decreasing, provided
each stage's onProgress callback reports non-decreasing values in
`[0, 1]`. -/
theorem c8_progress_monotone (env : Env) (songId : String) (opts : Options) (s : St)
    (hempty : s.core.trace = [])
    (htp : ∀ p ∈ env.torrentProgress, 0 ≤ p ∧ p ≤ 1)
    (_htpc : env.torrentProgress.Chain' (· ≤ ·))
    (hsp : ∀ p ∈ env.sepProgress, 0 ≤ p ∧ p ≤ 1)
    (_hspc : env.sepProgress.Chain' (· ≤ ·)) :
    (progressVals ((processKaraokeSong env songId opts s).core.trace.takeWhile
        nonTerminalEv)).Chain' (· ≤ ·) := by
  simp only [processKaraokeSong, runBody, coreWriteStatus_cache, acquireAudio_eq]
  cases hgs : getSong s.core.songs songId with
  | none =>
    simp only [hgs]
    simp [coreWriteStatus_trace, hempty, progressVals, nonTerminalEv, isTerminalStatus]
  | some song =>
    simp only [hgs]
    cases hc1 : (checkCache env.fs env.now song.songTitle song.artist (jsStr opts.quality)
        s.core.cache).1 with
    | some hit =>
      cases huc : opts.useCache with
      | some b =>
        cases b with
        | true =>
          simp only [huc]
          simp [coreWriteStatus_trace, coreWritePaths_trace, hempty, progressVals,
            nonTerminalEv, isTerminalStatus]
        | false =>
          simp only [huc]
          cases hac : acquiredAudio env with
          | none =>
            simp only [hac]
            simp only [coreWriteStatus_trace, coreWritePaths_trace, acquireCore_trace, hempty,
              List.nil_append, List.append_assoc, List.cons_append, List.singleton_append]
            exact chainLeafAcq songId (acqEvents env songId) ⟨songId, .failed, some 0⟩
              (acqEvents_mem env songId htp) rfl
          | some audio =>
            simp only [hac]
            cases hso : env.sepOutcome with
            | error e =>
              simp only [hso]
              simp only [coreWriteStatus_trace, coreWritePaths_trace, acquireCore_trace,
                fireProgress_trace, hempty, List.nil_append, List.append_assoc,
                List.cons_append, List.singleton_append]
              exact chainLeafSep songId (acqEvents env songId)
                (env.sepProgress.map (fun p => ⟨songId, .processing, some (45 + jsRound (p * 0.25))⟩))
                ⟨songId, .failed, some 0⟩ (acqEvents_mem env songId htp)
                (sepEvents_mem songId env.sepProgress hsp) rfl
            | ok instr =>
              simp only [hso]
              cases hlr : env.lyricsResult with
              | none =>
                simp only [hlr, syncLyricsThrow_none env hlr]
                cases hcv : composeVideoStep env instr
                    ((ytVideoOf env).map (fun v => v.filePath)) none none with
                | error e =>
                  simp only [hcv]
                  simp only [coreWriteStatus_trace, coreWritePaths_trace, acquireCore_trace,
                    fireProgress_trace, hempty, List.nil_append, List.append_assoc,
                    List.cons_append, List.singleton_append]
                  exact chainLeafFull songId (acqEvents env songId)
                    (env.sepProgress.map
                      (fun p => ⟨songId, .processing, some (45 + jsRound (p * 0.25))⟩))
                    ⟨songId, .failed, some 0⟩ (acqEvents_mem env songId htp)
                    (sepEvents_mem songId env.sepProgress hsp) rfl
                | ok video =>
                  simp only [hcv]
                  simp only [coreWriteStatus_trace, coreWritePaths_trace, acquireCore_trace,
                    fireProgress_trace, hempty, List.nil_append, List.append_assoc,
                    List.cons_append, List.singleton_append]
                  exact chainLeafFull songId (acqEvents env songId)
                    (env.sepProgress.map
                      (fun p => ⟨songId, .processing, some (45 + jsRound (p * 0.25))⟩))
                    ⟨songId, .ready, some 100⟩ (acqEvents_mem env songId htp)
                    (sepEvents_mem songId env.sepProgress hsp) rfl
              | some ly =>
                simp only [hlr, syncLyricsThrow_some env ly hlr]
                cases hsy : env.syncOutcome with
                | error e0 =>
                  simp only [hsy]
                  simp only [coreWriteStatus_trace, coreWritePaths_trace, acquireCore_trace,
                    fireProgress_trace, hempty, List.nil_append, List.append_assoc,
                    List.cons_append, List.singleton_append]
                  exact chainLeafSync songId (acqEvents env songId)
                    (env.sepProgress.map
                      (fun p => ⟨songId, .processing, some (45 + jsRound (p * 0.25))⟩))
                    ⟨songId, .failed, some 0⟩ (acqEvents_mem env songId htp)
                    (sepEvents_mem songId env.sepProgress hsp) rfl
                | ok u0 =>
                  simp only [hsy]
                  cases hwl : env.writeLrcOutcome with
                  | error e1 =>
                    simp only [hwl]
                    simp only [coreWriteStatus_trace, coreWritePaths_trace, acquireCore_trace,
                      fireProgress_trace, hempty, List.nil_append, List.append_assoc,
                      List.cons_append, List.singleton_append]
                    exact chainLeafSync songId (acqEvents env songId)
                      (env.sepProgress.map
                        (fun p => ⟨songId, .processing, some (45 + jsRound (p * 0.25))⟩))
                      ⟨songId, .failed, some 0⟩ (acqEvents_mem env songId htp)
                      (sepEvents_mem songId env.sepProgress hsp) rfl
                  | ok u1 =>
                    simp only [hwl]
                    cases hcv : composeVideoStep env instr
                        ((ytVideoOf env).map (fun v => v.filePath))
                        (some (jsDirname instr ++ "/lyrics.lrc")) (some ly) with
                    | error e =>
                      simp only [hcv]
                      simp only [coreWriteStatus_trace, coreWritePaths_trace, acquireCore_trace,
                        fireProgress_trace, hempty, List.nil_append, List.append_assoc,
                        List.cons_append, List.singleton_append]
                      exact chainLeafFull songId (acqEvents env songId)
                        (env.sepProgress.map
                          (fun p => ⟨songId, .processing, some (45 + jsRound (p * 0.25))⟩))
                        ⟨songId, .failed, some 0⟩ (acqEvents_mem env songId htp)
                        (sepEvents_mem songId env.sepProgress hsp) rfl
                    | ok video =>
                      simp only [hcv]
                      simp only [coreWriteStatus_trace, coreWritePaths_trace, acquireCore_trace,
                        fireProgress_trace, hempty, List.nil_append, List.append_assoc,
                        List.cons_append, List.singleton_append]
                      exact chainLeafFull songId (acqEvents env songId)
                        (env.sepProgress.map
                          (fun p => ⟨songId, .processing, some (45 + jsRound (p * 0.25))⟩))
                        ⟨songId, .ready, some 100⟩ (acqEvents_mem env songId htp)
                        (sepEvents_mem songId env.sepProgress hsp) rfl
      | none =>
        simp only [huc]
        cases hac : acquiredAudio env with
        | none =>
          simp only [hac]
          simp only [coreWriteStatus_trace, coreWritePaths_trace, acquireCore_trace, hempty,
            List.nil_append, List.append_assoc, List.cons_append, List.singleton_append]
          exact chainLeafAcq songId (acqEvents env songId) ⟨songId, .failed, some 0⟩
            (acqEvents_mem env songId htp) rfl
        | some audio =>
          simp only [hac]
          cases hso : env.sepOutcome with
          | error e =>
            simp only [hso]
            simp only [coreWriteStatus_trace, coreWritePaths_trace, acquireCore_trace,
              fireProgress_trace, hempty, List.nil_append, List.append_assoc,
              List.cons_append, List.singleton_append]
            exact chainLeafSep songId (acqEvents env songId)
              (env.sepProgress.map (fun p => ⟨songId, .processing, some (45 + jsRound (p * 0.25))⟩))
              ⟨songId, .failed, some 0⟩ (acqEvents_mem env songId htp)
              (sepEvents_mem songId env.sepProgress hsp) rfl
          | ok instr =>
            simp only [hso]
            cases hlr : env.lyricsResult with
            | none =>
              simp only [hlr, syncLyricsThrow_none env hlr]
              cases hcv : composeVideoStep env instr
                  ((ytVideoOf env).map (fun v => v.filePath)) none none with
              | error e =>
                simp only [hcv]
                simp only [coreWriteStatus_trace, coreWritePaths_trace, acquireCore_trace,
                  fireProgress_trace, hempty, List.nil_append, List.append_assoc,
                  List.cons_append, List.singleton_append]
                exact chainLeafFull songId (acqEvents env songId)
                  (env.sepProgress.map
                    (fun p => ⟨songId, .processing, some (45 + jsRound (p * 0.25))⟩))
                  ⟨songId, .failed, some 0⟩ (acqEvents_mem env songId htp)
                  (sepEvents_mem songId env.sepProgress hsp) rfl
              | ok video =>
                simp only [hcv]
                simp only [coreWriteStatus_trace, coreWritePaths_trace, acquireCore_trace,
                  fireProgress_trace, hempty, List.nil_append, List.append_assoc,
                  List.cons_append, List.singleton_append]
                exact chainLeafFull songId (acqEvents env songId)
                  (env.sepProgress.map
                    (fun p => ⟨songId, .processing, some (45 + jsRound (p * 0.25))⟩))
                  ⟨songId, .ready, some 100⟩ (acqEvents_mem env songId htp)
                  (sepEvents_mem songId env.sepProgress hsp) rfl
            | some ly =>
              simp only [hlr, syncLyricsThrow_some env ly hlr]
              cases hsy : env.syncOutcome with
              | error e0 =>
                simp only [hsy]
                simp only [coreWriteStatus_trace, coreWritePaths_trace, acquireCore_trace,
                  fireProgress_trace, hempty, List.nil_append, List.append_assoc,
                  List.cons_append, List.singleton_append]
                exact chainLeafSync songId (acqEvents env songId)
                  (env.sepProgress.map
                    (fun p => ⟨songId, .processing, some (45 + jsRound (p * 0.25))⟩))
                  ⟨songId, .failed, some 0⟩ (acqEvents_mem env songId htp)
                  (sepEvents_mem songId env.sepProgress hsp) rfl
              | ok u0 =>
                simp only [hsy]
                cases hwl : env.writeLrcOutcome with
                | error e1 =>
                  simp only [hwl]
                  simp only [coreWriteStatus_trace, coreWritePaths_trace, acquireCore_trace,
                    fireProgress_trace, hempty, List.nil_append, List.append_assoc,
                    List.cons_append, List.singleton_append]
                  exact chainLeafSync songId (acqEvents env songId)
                    (env.sepProgress.map
                      (fun p => ⟨songId, .processing, some (45 + jsRound (p * 0.25))⟩))
                    ⟨songId, .failed, some 0⟩ (acqEvents_mem env songId htp)
                    (sepEvents_mem songId env.sepProgress hsp) rfl
                | ok u1 =>
                  simp only [hwl]
                  cases hcv : composeVideoStep env instr
                      ((ytVideoOf env).map (fun v => v.filePath))
                      (some (jsDirname instr ++ "/lyrics.lrc")) (some ly) with
                  | error e =>
                    simp only [hcv]
                    simp only [coreWriteStatus_trace, coreWritePaths_trace, acquireCore_trace,
                      fireProgress_trace, hempty, List.nil_append, List.append_assoc,
                      List.cons_append, List.singleton_append]
                    exact chainLeafFull songId (acqEvents env songId)
                      (env.sepProgress.map
                        (fun p => ⟨songId, .processing, some (45 + jsRound (p * 0.25))⟩))
                      ⟨songId, .failed, some 0⟩ (acqEvents_mem env songId htp)
                      (sepEvents_mem songId env.sepProgress hsp) rfl
                  | ok video =>
                    simp only [hcv]
                    simp only [coreWriteStatus_trace, coreWritePaths_trace, acquireCore_trace,
                      fireProgress_trace, hempty, List.nil_append, List.append_assoc,
                      List.cons_append, List.singleton_append]
                    exact chainLeafFull songId (acqEvents env songId)
                      (env.sepProgress.map
                        (fun p => ⟨songId, .processing, some (45 + jsRound (p * 0.25))⟩))
                      ⟨songId, .ready, some 100⟩ (acqEvents_mem env songId htp)
                      (sepEvents_mem songId env.sepProgress hsp) rfl
    | none =>
      cases hac : acquiredAudio env with
      | none =>
        simp only [hac]
        simp only [coreWriteStatus_trace, coreWritePaths_trace, acquireCore_trace, hempty,
          List.nil_append, List.append_assoc, List.cons_append, List.singleton_append]
        exact chainLeafAcq songId (acqEvents env songId) ⟨songId, .failed, some 0⟩
          (acqEvents_mem env songId htp) rfl
      | some audio =>
        simp only [hac]
        cases hso : env.sepOutcome with
        | error e =>
          simp only [hso]
          simp only [coreWriteStatus_trace, coreWritePaths_trace, acquireCore_trace,
            fireProgress_trace, hempty, List.nil_append, List.append_assoc,
            List.cons_append, List.singleton_append]
          exact chainLeafSep songId (acqEvents env songId)
            (env.sepProgress.map (fun p => ⟨songId, .processing, some (45 + jsRound (p * 0.25))⟩))
            ⟨songId, .failed, some 0⟩ (acqEvents_mem env songId htp)
            (sepEvents_mem songId env.sepProgress hsp) rfl
        | ok instr =>
          simp only [hso]
          cases hlr : env.lyricsResult with
          | none =>
            simp only [hlr, syncLyricsThrow_none env hlr]
            cases hcv : composeVideoStep env instr
                ((ytVideoOf env).map (fun v => v.filePath)) none none with
            | error e =>
              simp only [hcv]
              simp only [coreWriteStatus_trace, coreWritePaths_trace, acquireCore_trace,
                fireProgress_trace, hempty, List.nil_append, List.append_assoc,
                List.cons_append, List.singleton_append]
              exact chainLeafFull songId (acqEvents env songId)
                (env.sepProgress.map
                  (fun p => ⟨songId, .processing, some (45 + jsRound (p * 0.25))⟩))
                ⟨songId, .failed, some 0⟩ (acqEvents_mem env songId htp)
                (sepEvents_mem songId env.sepProgress hsp) rfl
            | ok video =>
              simp only [hcv]
              simp only [coreWriteStatus_trace, coreWritePaths_trace, acquireCore_trace,
                fireProgress_trace, hempty, List.nil_append, List.append_assoc,
                List.cons_append, List.singleton_append]
              exact chainLeafFull songId (acqEvents env songId)
                (env.sepProgress.map
                  (fun p => ⟨songId, .processing, some (45 + jsRound (p * 0.25))⟩))
                ⟨songId, .ready, some 100⟩ (acqEvents_mem env songId htp)
                (sepEvents_mem songId env.sepProgress hsp) rfl
          | some ly =>
            simp only [hlr, syncLyricsThrow_some env ly hlr]
            cases hsy : env.syncOutcome with
            | error e0 =>
              simp only [hsy]
              simp only [coreWriteStatus_trace, coreWritePaths_trace, acquireCore_trace,
                fireProgress_trace, hempty, List.nil_append, List.append_assoc,
                List.cons_append, List.singleton_append]
              exact chainLeafSync songId (acqEvents env songId)
                (env.sepProgress.map
                  (fun p => ⟨songId, .processing, some (45 + jsRound (p * 0.25))⟩))
                ⟨songId, .failed, some 0⟩ (acqEvents_mem env songId htp)
                (sepEvents_mem songId env.sepProgress hsp) rfl
            | ok u0 =>
              simp only [hsy]
              cases hwl : env.writeLrcOutcome with
              | error e1 =>
                simp only [hwl]
                simp only [coreWriteStatus_trace, coreWritePaths_trace, acquireCore_trace,
                  fireProgress_trace, hempty, List.nil_append, List.append_assoc,
                  List.cons_append, List.singleton_append]
                exact chainLeafSync songId (acqEvents env songId)
                  (env.sepProgress.map
                    (fun p => ⟨songId, .processing, some (45 + jsRound (p * 0.25))⟩))
                  ⟨songId, .failed, some 0⟩ (acqEvents_mem env songId htp)
                  (sepEvents_mem songId env.sepProgress hsp) rfl
              | ok u1 =>
                simp only [hwl]
                cases hcv : composeVideoStep env instr
                    ((ytVideoOf env).map (fun v => v.filePath))
                    (some (jsDirname instr ++ "/lyrics.lrc")) (some ly) with
                | error e =>
                  simp only [hcv]
                  simp only [coreWriteStatus_trace, coreWritePaths_trace, acquireCore_trace,
                    fireProgress_trace, hempty, List.nil_append, List.append_assoc,
                    List.cons_append, List.singleton_append]
                  exact chainLeafFull songId (acqEvents env songId)
                    (env.sepProgress.map
                      (fun p => ⟨songId, .processing, some (45 + jsRound (p * 0.25))⟩))
                    ⟨songId, .failed, some 0⟩ (acqEvents_mem env songId htp)
                    (sepEvents_mem songId env.sepProgress hsp) rfl
                | ok video =>
                  simp only [hcv]
                  simp only [coreWriteStatus_trace, coreWritePaths_trace, acquireCore_trace,
                    fireProgress_trace, hempty, List.nil_append, List.append_assoc,
                    List.cons_append, List.singleton_append]
                  exact chainLeafFull songId (acqEvents env songId)
                    (env.sepProgress.map
                      (fun p => ⟨songId, .processing, some (45 + jsRound (p * 0.25))⟩))
                    ⟨songId, .ready, some 100⟩ (acqEvents_mem env songId htp)
                    (sepEvents_mem songId env.sepProgress hsp) rfl


/-- Song fixture for the C8 witness run. -/
def c8Song : Song where
  id := "s8"
  userId := "u"
  songTitle := "Africa"
  artist := "Toto"
  status := .queued
  processingProgress := 0
  requestedAt := 5
  originalAudioPath := none
  instrumentalPath := none
  lyricsPath := none
  videoPath := none

/-- Environment for the C8 witness run: a torrent is found and downloads
with progress callbacks `[0, 1]`, separation succeeds with callbacks
`[0, 1]`, lyrics are found, and the compose stage succeeds, so the run
writes a full nontrivial progress trace before reaching `ready`. -/
def c8Env : Env where
  fs := fun _ => true
  sizeOf := fun _ => 7
  now := 20
  torrentFind := some { magnet := "magnet:x", title := "Africa" }
  torrentProgress := [0, 1]
  torrentOutcome := .ok "dl/africa.mp3"
  uploadsFile := none
  youtubeOutcome := .ok none
  sepProgress := [0, 1]
  sepOutcome := .ok "w/instrumental.wav"
  lyricsResult := some "[00:01.00] hold the line"
  syncOutcome := .ok ()
  writeLrcOutcome := .ok ()
  replaceAudioOutcome := .ok ()
  optimizeOutcome := .ok "w/opt.mp4"
  generateVideoOutcome := .ok ()
  lyricVideoOutcome := .ok ()

def c8St : St where
  core := { songs := [c8Song], cache := [], trace := [] }
  jobs := []

theorem c8_progress_monotone_witness :
    c8St.core.trace = [] ∧
    (∀ p ∈ c8Env.torrentProgress, 0 ≤ p ∧ p ≤ 1) ∧
    c8Env.torrentProgress.Chain' (· ≤ ·) ∧
    (∀ p ∈ c8Env.sepProgress, 0 ≤ p ∧ p ≤ 1) ∧
    c8Env.sepProgress.Chain' (· ≤ ·) ∧
    (progressVals ((processKaraokeSong c8Env "s8" {} c8St).core.trace.takeWhile
        nonTerminalEv)).Chain' (· ≤ ·) :=
  ⟨rfl, by decide, by norm_num [c8Env, List.chain'_cons], by decide, by norm_num [c8Env, List.chain'_cons],
    c8_progress_monotone c8Env "s8" {} c8St rfl (by decide) (by norm_num [c8Env, List.chain'_cons])
      (by decide) (by norm_num [c8Env, List.chain'_cons])⟩

end Karaokio
